import Mathlib

/-!
# Product routes: authorization and validation pipeline

A shallow embedding of `routes/products.js` and `middleware/admin.js`.

Every route is a list of Express stages.  A stage receives the request
context and either passes it on (`next()`), answers the request, or throws.
Each stage that runs leaves an event in the context's trace, and every
persistence call is an event too, so "stage X did not run" and "persistence
was called n times" are statements about the trace.

The validation chains are those of express-validator: `check()` looks a field
up in the body, the cookies, the headers, the route parameters and the query
string.  Major versions 6 and 7 of the library treat array values
differently, so the rules take the version as a parameter.

The persistence collaborator (the Mongoose model `Product`) is a parameter of
the handlers; `memoryDb` is a reference collaborator over an in-memory
store.
-/

namespace NodeAssessment

/-! ## Request data -/

mutual
/-- A JSON value.  A number is carried as the text JavaScript's `String()`
gives for it (`5` as "5", `-3` as "-3", `12.5` as "12.5", `1e21` as
"1e+21"). -/
inductive JVal where
  | null
  | bool (b : Bool)
  | num (text : String)
  | str (s : String)
  | arr (items : JList)
  | obj (fields : JFields)
  deriving DecidableEq
/-- The items of a JSON array. -/
inductive JList where
  | nil
  | cons (head : JVal) (tail : JList)
  deriving DecidableEq
/-- The members of a JSON object value. -/
inductive JFields where
  | nil
  | cons (key : String) (value : JVal) (tail : JFields)
  deriving DecidableEq
end

/-- The items of a JSON array as a list. -/
def JList.toList : JList → List JVal
  | JList.nil => []
  | JList.cons v rest => v :: rest.toList

/-- The JSON array of a list of items. -/
def JList.ofList : List JVal → JList
  | [] => JList.nil
  | v :: rest => JList.cons v (JList.ofList rest)

mutual
/-- JavaScript's `String(value)`, which for an array or an object is
`value.toString()`: an array joins the strings of its items with commas, a
null item giving the empty string, and an object gives "[object Object]". -/
def JVal.text : JVal → String
  | JVal.null => "null"
  | JVal.bool b => if b then "true" else "false"
  | JVal.num text => text
  | JVal.str s => s
  | JVal.arr items => ",".intercalate items.texts
  | JVal.obj _ => "[object Object]"
/-- The strings of the items of an array, as `Array.prototype.join` takes
them. -/
def JList.texts : JList → List String
  | JList.nil => []
  | JList.cons JVal.null rest => "" :: rest.texts
  | JList.cons v rest => v.text :: rest.texts
end

/-- A JSON object at top level: the request body, the query string, the
headers, the cookies, a query filter, or the fields of a stored document. -/
abbrev Body := List (String × JVal)

/-- Property read `obj[key]`; `none` is JavaScript's `undefined`. -/
def fieldOf (obj : Body) (key : String) : Option JVal :=
  List.lookup key obj

/-- The authenticated caller (`req.user`). -/
structure Identity where
  id : String
  isAdmin : Bool
  deriving DecidableEq

/-- An inbound request.  `identity` is what the identity-resolution
collaborator establishes from the request's credential (`none` when no
identity can be established), `id` is `req.params.id`, and `body`,
`cookies`, `headers` and `query` are the objects of the same name on the
Express request. -/
structure Request where
  identity : Option Identity
  id : String
  body : Body
  cookies : Body
  headers : Body
  query : Body
  deriving DecidableEq

/-- The request locations a validation chain can read. -/
inductive Location where
  | body
  | cookies
  | headers
  | params
  | query
  deriving DecidableEq

/-- The object `req[location]`.  The route parameters are bound from the
path pattern: `/:id` binds `id` and nothing else. -/
def Request.part (req : Request) : Location → Body
  | Location.body => req.body
  | Location.cookies => req.cookies
  | Location.headers => req.headers
  | Location.params => [("id", JVal.str req.id)]
  | Location.query => req.query

/-! ## Persistence collaborator -/

/-- A stored product document: its id and its fields. -/
structure Product where
  id : String
  fields : Body
  deriving DecidableEq

/-- The argument of `new Product(...)` in the create handler: the three
destructured body fields, each possibly `undefined`. -/
structure NewProduct where
  name : Option JVal
  description : Option JVal
  price : Option JVal
  deriving DecidableEq

/-- A call made on the persistence collaborator, with its arguments. -/
inductive DbCall where
  | save (doc : NewProduct)
  | find (filter : Body)
  | findByIdAndUpdate (id : String) (update : Body) (returnNew : Bool)
  | findByIdAndDelete (id : String)
  deriving DecidableEq

/-- The persistence collaborator over a store of type `σ`.  Each operation
either yields its result or throws an error, represented by its message
(`err.message`), and leaves a store behind. -/
structure Persistence (σ : Type) where
  save : NewProduct → σ → Except String Product × σ
  find : Body → σ → Except String (List Product) × σ
  findByIdAndUpdate : String → Body → Bool → σ → Except String (Option Product) × σ
  findByIdAndDelete : String → σ → Except String Unit × σ

/-! ## Responses, trace and request context -/

/-- One entry of `errors.array()`: the field (`param`, called `path` from
version 7 on), the rule's message, the offending value (`none` for an absent
field) and the location it was read from. -/
structure ValidationError where
  param : String
  msg : String
  value : Option JVal
  location : Location
  deriving DecidableEq

/-- The payload of a response. -/
inductive ResBody where
  | msg (text : String)
  | errors (list : List ValidationError)
  | product (doc : Option Product)
  | products (docs : List Product)
  | text (s : String)
  | unspecified
  deriving DecidableEq

/-- An HTTP response: status code and payload. -/
structure Response where
  status : Nat
  body : ResBody
  deriving DecidableEq

/-- What happened while a request was processed, in order. -/
inductive Event where
  | auth
  | admin
  | check (field : String)
  | handler
  | db (call : DbCall)
  deriving DecidableEq

/-- The request context threaded through the stages. -/
structure Ctx (σ : Type) where
  req : Request
  user : Option Identity
  errors : List ValidationError
  trace : List Event
  console : List String
  store : σ

/-- The result of one stage: `next()` was called, a response was sent, or
the stage threw. -/
inductive Step (σ : Type) where
  | next (c : Ctx σ)
  | respond (r : Response) (c : Ctx σ)
  | throw (c : Ctx σ)

/-- The end of a request: the response sent, if any, and the final context. -/
structure Outcome (σ : Type) where
  response : Option Response
  ctx : Ctx σ

/-- The context a request starts with. -/
def Ctx.start {σ : Type} (req : Request) (store : σ) : Ctx σ :=
  { req := req, user := none, errors := [], trace := [], console := [], store := store }

/-- Record that a stage ran. -/
def Ctx.mark {σ : Type} (c : Ctx σ) (e : Event) : Ctx σ :=
  { c with trace := c.trace ++ [e] }

/-- The persistence calls of a trace, in order. -/
def dbCalls : List Event → List DbCall
  | [] => []
  | Event.db call :: rest => call :: dbCalls rest
  | _ :: rest => dbCalls rest

/-- The fields whose validation rule ran, in order. -/
def checkedFields : List Event → List String
  | [] => []
  | Event.check f :: rest => f :: checkedFields rest
  | _ :: rest => checkedFields rest

/-! ## Gates -/

/-- Modelled from the spec: `middleware/auth.js` is not among the sources.
The authentication gate (section 4.1) binds the resolved identity into the
request context and lets the request continue; when no identity can be
established it halts the request with status 401 (section 7). -/
def authMiddleware {σ : Type} (c : Ctx σ) : Step σ :=
  let c := c.mark Event.auth
  match c.req.identity with
  | none => Step.respond { status := 401, body := ResBody.unspecified } c
  | some u => Step.next { c with user := some u }

/-- The role gate of `middleware/admin.js`.  Reading `req.user.isAdmin` on a
request without `req.user` throws. -/
def adminMiddleware {σ : Type} (c : Ctx σ) : Step σ :=
  let c := c.mark Event.admin
  match c.user with
  | none => Step.throw c
  | some u =>
    if !u.isAdmin then
      Step.respond { status := 403, body := ResBody.msg "Access denied: Admins only" } c
    else
      Step.next c

/-! ## Field validation (express-validator) -/

/-- The major versions of express-validator the rules are read against. -/
inductive Version where
  | v6
  | v7
  deriving DecidableEq

/-- The string a value is turned into before a standard validator sees it
(express-validator's `toString`, in version 6 on its second, shallow call):
`undefined` and `null` become the empty string, an array or object
`value.toString()`, anything else `String(value)`. -/
def toStr : Option JVal → String
  | none => ""
  | some JVal.null => ""
  | some v => v.text

/-- The `toString(value)` of version 6 on its first call: a non-empty array
is taken by its first item, `toString(value[0], false)`. -/
def toStrDeep : Option JVal → String
  | some (JVal.arr (JList.cons first _)) => toStr (some first)
  | v => toStr v

/-- The validator `isEmpty(str, options)` of validator.js:
`(ignore_whitespace ? str.trim().length : str.length) === 0`. -/
def isEmpty (ignoreWhitespace : Bool) (s : String) : Bool :=
  if ignoreWhitespace then s.trim.length == 0 else s.length == 0

/-- The optional sign `[+-]?` at the start of a numeral. -/
def stripSign : List Char → List Char
  | '+' :: r => r
  | '-' :: r => r
  | r => r

/-- The part `([0-9]*[.])?[0-9]+$` of the numeric pattern: either digits
only, at least one, or digits (possibly none), a point and at least one
digit. -/
def unsignedNumeric (cs : List Char) : Bool :=
  match cs.dropWhile Char.isDigit with
  | [] => !(cs.takeWhile Char.isDigit).isEmpty
  | '.' :: frac => !frac.isEmpty && frac.all Char.isDigit
  | _ => false

/-- The validator `isNumeric(str)` of validator.js without options, on the
characters of the string: the regular expression
`^[+-]?([0-9]*[.])?[0-9]+$`. -/
def isNumericChars (cs : List Char) : Bool :=
  unsignedNumeric (stripSign cs)

/-- The validator `isNumeric(str)`. -/
def isNumeric (s : String) : Bool :=
  isNumericChars s.data

/-- The standard validators used by the routes. -/
inductive StdValidator where
  | isEmpty
  | isNumeric
  deriving DecidableEq

/-- Apply a standard validator with the options the routes give it (none:
`ignore_whitespace` defaults to false). -/
def StdValidator.test : StdValidator → String → Bool
  | StdValidator.isEmpty, s => NodeAssessment.isEmpty false s
  | StdValidator.isNumeric, s => NodeAssessment.isNumeric s

/-- A validation chain `check(field, message)` followed by at most one
`.optional()`, at most one `.not()` and one standard validator. -/
structure Chain where
  field : String
  message : String
  optional : Bool
  negated : Bool
  validator : StdValidator
  deriving DecidableEq

/-- The locations `check()` reads, in its order. -/
def checkLocations : List Location :=
  [Location.body, Location.cookies, Location.headers, Location.params, Location.query]

/-- A string in lower case. -/
def lowerCase (s : String) : String :=
  String.mk (s.data.map Char.toLower)

/-- The value of a field at a location, `_.get(req[location], path)`; header
names are looked up in lower case. -/
def Request.lookup (req : Request) (loc : Location) (field : String) : Option JVal :=
  fieldOf (req.part loc) (if loc = Location.headers then lowerCase field else field)

/-- A selected field instance: where it was read and its value there. -/
structure FieldInstance where
  location : Location
  value : Option JVal
  deriving DecidableEq

/-- The field selection of `check(field)`: one instance for each location,
defined there or not. -/
def selectFields (req : Request) (field : String) : List FieldInstance :=
  checkLocations.map (fun loc => { location := loc, value := req.lookup loc field })

/-- The instances a chain validates (`Context.getData`).  With several
locations, the instances whose value is defined are kept, or the first
instance alone if none is defined; an optional chain then drops the
instances whose value is `undefined`. -/
def Chain.getData (ch : Chain) (instances : List FieldInstance) : List FieldInstance :=
  let reconciled :=
    if instances.length > 1 then
      let withValue := instances.filter (fun i => i.value.isSome)
      if withValue.isEmpty then instances.take 1 else withValue
    else instances
  if ch.optional then reconciled.filter (fun i => i.value.isSome) else reconciled

/-- The values a standard validator of version 7 is run on: the items of an
array, or the value itself. -/
def valuesOf : Option JVal → List (Option JVal)
  | some (JVal.arr items) => items.toList.map some
  | v => [v]

/-- The error a chain records for a value at a location. -/
def Chain.error (ch : Chain) (loc : Location) (value : Option JVal) : ValidationError :=
  { param := ch.field, msg := ch.message, value := value, location := loc }

/-- The standard validation of one instance (`StandardValidation.run`).  An
error is recorded when `negated ? result : !result`.  Version 6 runs the
validator once, on the string of the value; version 7 runs it on each item
of an array value. -/
def Chain.check (ver : Version) (ch : Chain) (inst : FieldInstance) : List ValidationError :=
  match ver with
  | Version.v6 =>
    let result := ch.validator.test (toStrDeep inst.value)
    if (if ch.negated then result else !result) then [ch.error inst.location inst.value]
    else []
  | Version.v7 =>
    ((valuesOf inst.value).map (fun v =>
      let result := ch.validator.test (toStr v)
      if (if ch.negated then result else !result) then [ch.error inst.location v]
      else [])).flatten

/-- Run a chain on a request: select the field, keep the instances to
validate, validate each. -/
def Chain.run (ver : Version) (ch : Chain) (req : Request) : List ValidationError :=
  ((ch.getData (selectFields req ch.field)).map (ch.check ver)).flatten

/-- A chain as a stage: it records its errors on the request and always
calls `next()`. -/
def Chain.middleware {σ : Type} (ver : Version) (ch : Chain) (c : Ctx σ) : Step σ :=
  let c := c.mark (Event.check ch.field)
  Step.next { c with errors := c.errors ++ ch.run ver c.req }

/-- The chain `check('name', 'Name is required').not().isEmpty()`. -/
def createName : Chain :=
  { field := "name", message := "Name is required",
    optional := false, negated := true, validator := StdValidator.isEmpty }

/-- The chain `check('description', 'Description is required').not().isEmpty()`. -/
def createDescription : Chain :=
  { field := "description", message := "Description is required",
    optional := false, negated := true, validator := StdValidator.isEmpty }

/-- The chain `check('price', 'Price is required and must be a number').isNumeric()`. -/
def createPrice : Chain :=
  { field := "price", message := "Price is required and must be a number",
    optional := false, negated := false, validator := StdValidator.isNumeric }

/-- The chain `check('name', 'Name is required').optional().not().isEmpty()`. -/
def updateName : Chain :=
  { field := "name", message := "Name is required",
    optional := true, negated := true, validator := StdValidator.isEmpty }

/-- The chain
`check('description', 'Description is required').optional().not().isEmpty()`. -/
def updateDescription : Chain :=
  { field := "description", message := "Description is required",
    optional := true, negated := true, validator := StdValidator.isEmpty }

/-- The chain `check('price', 'Price must be a number').optional().isNumeric()`. -/
def updatePrice : Chain :=
  { field := "price", message := "Price must be a number",
    optional := true, negated := false, validator := StdValidator.isNumeric }

/-- The rules of `POST /`, in the order of the route definition. -/
def createRules : List Chain :=
  [createName, createDescription, createPrice]

/-- The rules of `PUT /:id`, in the order of the route definition. -/
def updateRules : List Chain :=
  [updateName, updateDescription, updatePrice]

/-- The validation result of a rule set on a request: the errors of every
chain, in rule order. -/
def validate (ver : Version) (rules : List Chain) (req : Request) : List ValidationError :=
  (rules.map (fun ch => ch.run ver req)).flatten

/-! ## Handlers -/

/-- The destructuring `const { name, description, price } = req.body`, as
handed to `new Product(...)`. -/
def newProductOf (body : Body) : NewProduct :=
  { name := fieldOf body "name",
    description := fieldOf body "description",
    price := fieldOf body "price" }

/-- The handler of `POST /`. -/
def createHandler {σ : Type} (db : Persistence σ) (c : Ctx σ) : Step σ :=
  let c := c.mark Event.handler
  if !c.errors.isEmpty then
    Step.respond { status := 400, body := ResBody.errors c.errors } c
  else
    let doc := newProductOf c.req.body
    let c := c.mark (Event.db (DbCall.save doc))
    match db.save doc c.store with
    | (Except.ok product, s) =>
      Step.respond { status := 201, body := ResBody.product (some product) } { c with store := s }
    | (Except.error message, s) =>
      Step.respond { status := 500, body := ResBody.text "Server error" }
        { c with store := s, console := c.console ++ [message] }

/-- The handler of `GET /`. -/
def listHandler {σ : Type} (db : Persistence σ) (c : Ctx σ) : Step σ :=
  let c := c.mark Event.handler
  let filter : Body := [("isVisible", JVal.bool true)]
  let c := c.mark (Event.db (DbCall.find filter))
  match db.find filter c.store with
  | (Except.ok products, s) =>
    Step.respond { status := 200, body := ResBody.products products } { c with store := s }
  | (Except.error message, s) =>
    Step.respond { status := 500, body := ResBody.text "Server error" }
      { c with store := s, console := c.console ++ [message] }

/-- The handler of `PUT /:id`. -/
def updateHandler {σ : Type} (db : Persistence σ) (c : Ctx σ) : Step σ :=
  let c := c.mark Event.handler
  if !c.errors.isEmpty then
    Step.respond { status := 400, body := ResBody.errors c.errors } c
  else
    let c := c.mark (Event.db (DbCall.findByIdAndUpdate c.req.id c.req.body true))
    match db.findByIdAndUpdate c.req.id c.req.body true c.store with
    | (Except.ok product, s) =>
      Step.respond { status := 200, body := ResBody.product product } { c with store := s }
    | (Except.error message, s) =>
      Step.respond { status := 500, body := ResBody.text "Server error" }
        { c with store := s, console := c.console ++ [message] }

/-- The handler of `DELETE /:id`. -/
def deleteHandler {σ : Type} (db : Persistence σ) (c : Ctx σ) : Step σ :=
  let c := c.mark Event.handler
  let c := c.mark (Event.db (DbCall.findByIdAndDelete c.req.id))
  match db.findByIdAndDelete c.req.id c.store with
  | (Except.ok _, s) =>
    Step.respond { status := 200, body := ResBody.msg "Product deleted" } { c with store := s }
  | (Except.error message, s) =>
    Step.respond { status := 500, body := ResBody.text "Server error" }
      { c with store := s, console := c.console ++ [message] }

/-! ## Routes -/

/-- Run the stages of a route in order until one answers or throws. -/
def runStages {σ : Type} : List (Ctx σ → Step σ) → Ctx σ → Outcome σ
  | [], c => { response := none, ctx := c }
  | stage :: rest, c =>
    match stage c with
    | Step.next c' => runStages rest c'
    | Step.respond r c' => { response := some r, ctx := c' }
    | Step.throw c' => { response := none, ctx := c' }

/-- The stages of `router.post('/')`. -/
def postRoute {σ : Type} (ver : Version) (db : Persistence σ) : List (Ctx σ → Step σ) :=
  [authMiddleware] ++ createRules.map (Chain.middleware ver) ++ [createHandler db]

/-- The stages of `router.get('/')`. -/
def getRoute {σ : Type} (db : Persistence σ) : List (Ctx σ → Step σ) :=
  [authMiddleware, listHandler db]

/-- The stages of `router.put('/:id')`. -/
def putRoute {σ : Type} (ver : Version) (db : Persistence σ) : List (Ctx σ → Step σ) :=
  [authMiddleware, adminMiddleware] ++ updateRules.map (Chain.middleware ver) ++
    [updateHandler db]

/-- The stages of `router.delete('/:id')`. -/
def deleteRoute {σ : Type} (db : Persistence σ) : List (Ctx σ → Step σ) :=
  [authMiddleware, adminMiddleware, deleteHandler db]

/-- Serve a request on a route from a given store. -/
def serve {σ : Type} (route : List (Ctx σ → Step σ)) (req : Request) (store : σ) : Outcome σ :=
  runStages route (Ctx.start req store)

/-! ## Reference persistence collaborator -/

/-- The in-memory product store: the documents and the counter ids are drawn
from. -/
structure Store where
  docs : List Product
  nextId : Nat
  deriving DecidableEq

/-- A document matches a query filter when it carries every field of the
filter with the filter's value. -/
def matchesFilter (filter : Body) (p : Product) : Bool :=
  filter.all (fun kv => fieldOf p.fields kv.1 == some kv.2)

/-- Shallow field overwrite: the fields of `update` replace the fields of the
same name, all other fields keep their value. -/
def overwrite (fields update : Body) : Body :=
  update ++ fields.filter (fun kv => !(update.any (fun uv => uv.1 == kv.1)))

/-- The fields of a new document: the given ones of name, description and
price, and `isVisible` at its default, true. -/
def NewProduct.fields (doc : NewProduct) : Body :=
  (doc.name.map (fun v => ("name", v))).toList ++
  (doc.description.map (fun v => ("description", v))).toList ++
  (doc.price.map (fun v => ("price", v))).toList ++
  [("isVisible", JVal.bool true)]

/-- Modelled from the spec: `models/Product.js` and the storage behind it are
not among the sources.  Create inserts a new Product whose `isVisible` is
true by default; list fetches all Products matching the filter; update is a
shallow field overwrite of the request body onto the Product identified by
id and returns the updated value; delete removes the Product identified by
id; an unknown id is passed through silently (section 4.4). -/
def memoryDb : Persistence Store where
  save := fun doc st =>
    let p : Product := { id := toString st.nextId, fields := doc.fields }
    (Except.ok p, { docs := st.docs ++ [p], nextId := st.nextId + 1 })
  find := fun filter st =>
    (Except.ok (st.docs.filter (matchesFilter filter)), st)
  findByIdAndUpdate := fun id update returnNew st =>
    match st.docs.find? (fun p => p.id == id) with
    | none => (Except.ok none, st)
    | some old =>
      let new : Product := { old with fields := overwrite old.fields update }
      (Except.ok (some (if returnNew then new else old)),
        { st with docs := st.docs.map (fun p => if p.id == id then
            { p with fields := overwrite p.fields update } else p) })
  findByIdAndDelete := fun id st =>
    (Except.ok (), { st with docs := st.docs.filter (fun p => p.id != id) })

/-- A collaborator whose every operation throws the given error and leaves
the store as it is. -/
def brokenDb {σ : Type} (message : String) : Persistence σ where
  save := fun _ st => (Except.error message, st)
  find := fun _ st => (Except.error message, st)
  findByIdAndUpdate := fun _ _ _ st => (Except.error message, st)
  findByIdAndDelete := fun _ st => (Except.error message, st)

/-- The error a persistence call throws on a store, if it throws. -/
def thrownBy {σ : Type} (db : Persistence σ) (call : DbCall) (store : σ) : Option String :=
  match call with
  | DbCall.save doc =>
    match (db.save doc store).1 with
    | Except.error e => some e
    | Except.ok _ => none
  | DbCall.find filter =>
    match (db.find filter store).1 with
    | Except.error e => some e
    | Except.ok _ => none
  | DbCall.findByIdAndUpdate id update returnNew =>
    match (db.findByIdAndUpdate id update returnNew store).1 with
    | Except.error e => some e
    | Except.ok _ => none
  | DbCall.findByIdAndDelete id =>
    match (db.findByIdAndDelete id store).1 with
    | Except.error e => some e
    | Except.ok _ => none

/-! ## Vocabulary of the claims -/

/-- A single-entry list when the condition holds, no entry otherwise. -/
def entryIf (failed : Bool) (e : ValidationError) : List ValidationError :=
  if failed then [e] else []

/-- An array value. -/
def isArray : Option JVal → Bool
  | some (JVal.arr _) => true
  | _ => false

/-- The field is defined at no location other than the body. -/
def Request.bodyOnly (req : Request) (field : String) : Bool :=
  (req.lookup Location.cookies field).isNone && (req.lookup Location.headers field).isNone &&
    (req.lookup Location.params field).isNone && (req.lookup Location.query field).isNone

/-- The field is defined at no location of the request. -/
def Request.absent (req : Request) (field : String) : Bool :=
  (fieldOf req.body field).isNone && req.bodyOnly field

/-- The field occurs in the body only and is not an array there. -/
def Request.plain (req : Request) (field : String) : Bool :=
  req.bodyOnly field && !isArray (fieldOf req.body field)

/-- A field that is missing or empty: absent, null, or the empty string. -/
def missingOrEmpty : Option JVal → Bool
  | none => true
  | some JVal.null => true
  | some (JVal.num text) => text == ""
  | some (JVal.str s) => s == ""
  | some _ => false

/-- A value that is a non-empty string. -/
def nonEmptyString : JVal → Bool
  | JVal.str s => s != ""
  | _ => false

/-- A string that is not empty and consists of whitespace only. -/
def whitespaceOnly (s : String) : Bool :=
  s != "" && s.data.all Char.isWhitespace

/-- A visible product: its `isVisible` is true. -/
def Product.visible (p : Product) : Bool :=
  fieldOf p.fields "isVisible" == some (JVal.bool true)

/-- An optionally signed decimal numeral: an optional sign, optionally some
digits (possibly none) followed by a decimal point, then at least one
digit. -/
def DecimalNumeral (cs : List Char) : Prop :=
  ∃ sign lead digits : List Char,
    cs = sign ++ lead ++ digits ∧
    (sign = [] ∨ sign = ['+'] ∨ sign = ['-']) ∧
    (lead = [] ∨ ∃ whole : List Char, lead = whole ++ ['.'] ∧ ∀ c ∈ whole, c.isDigit = true) ∧
    digits ≠ [] ∧ ∀ c ∈ digits, c.isDigit = true

/-- A value whose string form is an optionally signed decimal numeral. -/
def DecimalValue (v : Option JVal) : Prop :=
  ∃ w : JVal, v = some w ∧ DecimalNumeral w.text.data

/-- A price that is a number or a string, written as an optionally signed
decimal numeral. -/
def PlainNumeric (v : JVal) : Prop :=
  ((∃ t, v = JVal.num t) ∨ (∃ s, v = JVal.str s)) ∧ DecimalNumeral v.text.data

/-- JavaScript's decimal number literal on characters: digits with an
optional fraction, or a fraction alone, then an optional exponent
`e` or `E` with an optional sign and at least one digit. -/
def jsUnsignedDecimal (cs : List Char) : Bool :=
  let whole := cs.takeWhile Char.isDigit
  let afterWhole := cs.dropWhile Char.isDigit
  let afterPoint :=
    match afterWhole with
    | '.' :: r => r
    | r => r
  let frac := if afterPoint.length < afterWhole.length then afterPoint.takeWhile Char.isDigit else []
  let afterFrac := if afterPoint.length < afterWhole.length then afterPoint.dropWhile Char.isDigit
    else afterWhole
  let mantissaOk := !whole.isEmpty || !frac.isEmpty
  let exponentOk :=
    match afterFrac with
    | [] => true
    | c :: r =>
      (c == 'e' || c == 'E') &&
        (let ds := match r with
          | '+' :: t => t
          | '-' :: t => t
          | t => t
         !ds.isEmpty && ds.all Char.isDigit)
  mantissaOk && exponentOk

/-- A string that JavaScript's `Number()` reads as a decimal number:
optionally signed, with an optional fraction and an optional exponent. -/
def jsDecimal (s : String) : Bool :=
  match s.data with
  | '+' :: r => jsUnsignedDecimal r
  | '-' :: r => jsUnsignedDecimal r
  | r => jsUnsignedDecimal r

/-- A value that can be interpreted as a number: a number, or a string or
array whose string form `Number()` reads as a decimal number.  Booleans, null
and objects are not counted as numbers. -/
def interpretableAsNumber : JVal → Bool
  | JVal.num _ => true
  | JVal.str s => jsDecimal s
  | JVal.arr items => jsDecimal (JVal.arr items).text
  | _ => false

/-- Whether a validation result has an entry for a field. -/
def hasEntry (errs : List ValidationError) (field : String) : Bool :=
  errs.any (fun e => e.param == field)

/-- The four routes. -/
inductive Route where
  | post
  | get
  | put
  | delete
  deriving DecidableEq

/-- The stages of a route. -/
def Route.stages {σ : Type} (ver : Version) (db : Persistence σ) :
    Route → List (Ctx σ → Step σ)
  | Route.post => postRoute ver db
  | Route.get => getRoute db
  | Route.put => putRoute ver db
  | Route.delete => deleteRoute db

/-- The required gates of a route (section 4.4) pass on a request: the
caller is authenticated; on PUT and DELETE the caller is an admin; on POST
and PUT the validation result of the route's rule set is empty. -/
def gatesPass (ver : Version) (r : Route) (req : Request) : Bool :=
  match req.identity with
  | none => false
  | some u =>
    match r with
    | Route.post => (validate ver createRules req).isEmpty
    | Route.get => true
    | Route.put => u.isAdmin && (validate ver updateRules req).isEmpty
    | Route.delete => u.isAdmin

/-- The persistence call of a route's handler for a request. -/
def persistenceCall (r : Route) (req : Request) : DbCall :=
  match r with
  | Route.post => DbCall.save (newProductOf req.body)
  | Route.get => DbCall.find [("isVisible", JVal.bool true)]
  | Route.put => DbCall.findByIdAndUpdate req.id req.body true
  | Route.delete => DbCall.findByIdAndDelete req.id

/-! ## Sample data -/

/-- An authenticated caller without the admin role. -/
def member : Identity := { id := "u1", isAdmin := false }

/-- An authenticated admin. -/
def admin : Identity := { id := "u2", isAdmin := true }

/-- A request that carries a body and nothing in its cookies, headers and
query string. -/
def bodyRequest (who : Identity) (id : String) (body : Body) : Request :=
  { identity := some who, id := id, body := body, cookies := [], headers := [], query := [] }

/-- A store holding one visible product. -/
def shelf : Store :=
  { docs := [{ id := "0", fields := [("name", JVal.str "Widget"),
      ("description", JVal.str "A widget"), ("price", JVal.str "9.99"),
      ("isVisible", JVal.bool true)] }],
    nextId := 1 }

/-! ## The routes, stage by stage -/

/-- The create result is the errors of the three create chains, in order. -/
theorem validate_createRules (ver : Version) (req : Request) :
    validate ver createRules req =
      createName.run ver req ++ (createDescription.run ver req ++ createPrice.run ver req) := by
  simp [validate, createRules]

/-- The update result is the errors of the three update chains, in order. -/
theorem validate_updateRules (ver : Version) (req : Request) :
    validate ver updateRules req =
      updateName.run ver req ++ (updateDescription.run ver req ++ updatePrice.run ver req) := by
  simp [validate, updateRules]

/-- An unauthenticated request is answered 401 by the first stage of every
route; nothing else runs. -/
theorem serve_unauthenticated {σ : Type} (ver : Version) (r : Route) (db : Persistence σ) (req : Request)
    (store : σ) (h : req.identity = none) :
    (serve (r.stages ver db) req store).response =
      some { status := 401, body := ResBody.unspecified } ∧
    (serve (r.stages ver db) req store).ctx.trace = [Event.auth] ∧
    (serve (r.stages ver db) req store).ctx.store = store := by
  cases r <;>
    simp [Route.stages, serve, postRoute, getRoute, putRoute, deleteRoute, runStages,
      authMiddleware, Ctx.mark, Ctx.start, h]

/-- A non-admin is answered 403 by the role gate of PUT. -/
theorem put_non_admin {σ : Type} (ver : Version) (db : Persistence σ) (req : Request) (store : σ) (u : Identity)
    (hid : req.identity = some u) (hadmin : u.isAdmin = false) :
    (serve (putRoute ver db) req store).response =
      some { status := 403, body := ResBody.msg "Access denied: Admins only" } ∧
    (serve (putRoute ver db) req store).ctx.trace = [Event.auth, Event.admin] ∧
    (serve (putRoute ver db) req store).ctx.store = store := by
  simp [serve, putRoute, runStages, authMiddleware, adminMiddleware, Ctx.mark, Ctx.start,
    hid, hadmin]

/-- A non-admin is answered 403 by the role gate of DELETE. -/
theorem delete_non_admin {σ : Type} (db : Persistence σ) (req : Request) (store : σ)
    (u : Identity) (hid : req.identity = some u) (hadmin : u.isAdmin = false) :
    (serve (deleteRoute db) req store).response =
      some { status := 403, body := ResBody.msg "Access denied: Admins only" } ∧
    (serve (deleteRoute db) req store).ctx.trace = [Event.auth, Event.admin] ∧
    (serve (deleteRoute db) req store).ctx.store = store := by
  simp [serve, deleteRoute, runStages, authMiddleware, adminMiddleware, Ctx.mark, Ctx.start,
    hid, hadmin]

/-- POST with a non-empty validation result: 400 with the result, no
persistence call. -/
theorem post_invalid {σ : Type} (ver : Version) (db : Persistence σ) (req : Request) (store : σ) (u : Identity)
    (hid : req.identity = some u) (hne : validate ver createRules req ≠ []) :
    (serve (postRoute ver db) req store).response =
      some { status := 400, body := ResBody.errors (validate ver createRules req) } ∧
    (serve (postRoute ver db) req store).ctx.trace =
      [Event.auth, Event.check "name", Event.check "description", Event.check "price",
        Event.handler] ∧
    (serve (postRoute ver db) req store).ctx.store = store := by
  have hne' : ¬ (createName.run ver req ++
      (createDescription.run ver req ++ createPrice.run ver req)) = [] := by
    rw [← validate_createRules]; exact hne
  have hf : createName.field = "name" ∧ createDescription.field = "description" ∧
      createPrice.field = "price" := ⟨rfl, rfl, rfl⟩
  simp [serve, postRoute, runStages, authMiddleware, Ctx.mark, Ctx.start, hid, createRules,
    Chain.middleware, createHandler, validate, hne', hf]

/-- POST with an empty validation result: one `save` of the three fields; 201
with the saved product, or 500 when `save` throws. -/
theorem post_valid {σ : Type} (ver : Version) (db : Persistence σ) (req : Request) (store : σ) (u : Identity)
    (hid : req.identity = some u) (hv : validate ver createRules req = []) :
    (serve (postRoute ver db) req store).response =
      some (match (db.save (newProductOf req.body) store).1 with
        | Except.ok p => { status := 201, body := ResBody.product (some p) }
        | Except.error _ => { status := 500, body := ResBody.text "Server error" }) ∧
    (serve (postRoute ver db) req store).ctx.trace =
      [Event.auth, Event.check "name", Event.check "description", Event.check "price",
        Event.handler, Event.db (DbCall.save (newProductOf req.body))] ∧
    (serve (postRoute ver db) req store).ctx.store = (db.save (newProductOf req.body) store).2 := by
  rw [validate_createRules] at hv
  have hf : createName.field = "name" ∧ createDescription.field = "description" ∧
      createPrice.field = "price" := ⟨rfl, rfl, rfl⟩
  simp only [List.append_eq_nil] at hv
  rcases hsave : db.save (newProductOf req.body) store with ⟨_ | _, s⟩ <;>
  simp [serve, postRoute, runStages, authMiddleware, Ctx.mark, Ctx.start, hid, createRules,
    Chain.middleware, createHandler, hv, hsave, hf]

/-- GET by an authenticated caller: one `find` with the filter
`isVisible: true`; 200 with what it returns, or 500 when it throws. -/
theorem get_authenticated {σ : Type} (db : Persistence σ) (req : Request) (store : σ)
    (u : Identity) (hid : req.identity = some u) :
    (serve (getRoute db) req store).response =
      some (match (db.find [("isVisible", JVal.bool true)] store).1 with
        | Except.ok ps => { status := 200, body := ResBody.products ps }
        | Except.error _ => { status := 500, body := ResBody.text "Server error" }) ∧
    (serve (getRoute db) req store).ctx.trace =
      [Event.auth, Event.handler, Event.db (DbCall.find [("isVisible", JVal.bool true)])] ∧
    (serve (getRoute db) req store).ctx.store =
      (db.find [("isVisible", JVal.bool true)] store).2 := by
  rcases hfind : db.find [("isVisible", JVal.bool true)] store with ⟨_ | _, s⟩ <;>
  simp [serve, getRoute, runStages, authMiddleware, Ctx.mark, Ctx.start, hid, listHandler, hfind]

/-- PUT by an admin with a non-empty validation result: 400 with the result,
no persistence call. -/
theorem put_invalid {σ : Type} (ver : Version) (db : Persistence σ) (req : Request) (store : σ) (u : Identity)
    (hid : req.identity = some u) (hadmin : u.isAdmin = true)
    (hne : validate ver updateRules req ≠ []) :
    (serve (putRoute ver db) req store).response =
      some { status := 400, body := ResBody.errors (validate ver updateRules req) } ∧
    (serve (putRoute ver db) req store).ctx.trace =
      [Event.auth, Event.admin, Event.check "name", Event.check "description",
        Event.check "price", Event.handler] ∧
    (serve (putRoute ver db) req store).ctx.store = store := by
  have hne' : ¬ (updateName.run ver req ++
      (updateDescription.run ver req ++ updatePrice.run ver req)) = [] := by
    rw [← validate_updateRules]; exact hne
  have hf : updateName.field = "name" ∧ updateDescription.field = "description" ∧
      updatePrice.field = "price" := ⟨rfl, rfl, rfl⟩
  simp [serve, putRoute, runStages, authMiddleware, adminMiddleware, Ctx.mark, Ctx.start, hid,
    hadmin, updateRules, Chain.middleware, updateHandler, validate, hne', hf]

/-- PUT by an admin with an empty validation result: one `findByIdAndUpdate`
of the id with the request body; 200 with what it returns, or 500 when it
throws. -/
theorem put_valid {σ : Type} (ver : Version) (db : Persistence σ) (req : Request) (store : σ) (u : Identity)
    (hid : req.identity = some u) (hadmin : u.isAdmin = true)
    (hv : validate ver updateRules req = []) :
    (serve (putRoute ver db) req store).response =
      some (match (db.findByIdAndUpdate req.id req.body true store).1 with
        | Except.ok p => { status := 200, body := ResBody.product p }
        | Except.error _ => { status := 500, body := ResBody.text "Server error" }) ∧
    (serve (putRoute ver db) req store).ctx.trace =
      [Event.auth, Event.admin, Event.check "name", Event.check "description",
        Event.check "price", Event.handler,
        Event.db (DbCall.findByIdAndUpdate req.id req.body true)] ∧
    (serve (putRoute ver db) req store).ctx.store =
      (db.findByIdAndUpdate req.id req.body true store).2 := by
  rw [validate_updateRules] at hv
  have hf : updateName.field = "name" ∧ updateDescription.field = "description" ∧
      updatePrice.field = "price" := ⟨rfl, rfl, rfl⟩
  simp only [List.append_eq_nil] at hv
  rcases hupd : db.findByIdAndUpdate req.id req.body true store with ⟨_ | _, s⟩ <;>
  simp [serve, putRoute, runStages, authMiddleware, adminMiddleware, Ctx.mark, Ctx.start, hid,
    hadmin, updateRules, Chain.middleware, updateHandler, hv, hupd, hf]

/-- DELETE by an admin: one `findByIdAndDelete` of the id; 200 with the
confirmation, or 500 when it throws. -/
theorem delete_admin {σ : Type} (db : Persistence σ) (req : Request) (store : σ) (u : Identity)
    (hid : req.identity = some u) (hadmin : u.isAdmin = true) :
    (serve (deleteRoute db) req store).response =
      some (match (db.findByIdAndDelete req.id store).1 with
        | Except.ok _ => { status := 200, body := ResBody.msg "Product deleted" }
        | Except.error _ => { status := 500, body := ResBody.text "Server error" }) ∧
    (serve (deleteRoute db) req store).ctx.trace =
      [Event.auth, Event.admin, Event.handler, Event.db (DbCall.findByIdAndDelete req.id)] ∧
    (serve (deleteRoute db) req store).ctx.store = (db.findByIdAndDelete req.id store).2 := by
  rcases hdel : db.findByIdAndDelete req.id store with ⟨_ | _, s⟩ <;>
  simp [serve, deleteRoute, runStages, authMiddleware, adminMiddleware, Ctx.mark, Ctx.start,
    hid, hadmin, deleteHandler, hdel]

/-! ## The validators -/

/-- A string has length zero exactly when it is the empty string. -/
theorem length_beq_zero (s : String) : (s.length == 0) = (s == "") := by
  rcases s with ⟨cs⟩
  cases cs with
  | nil => rfl
  | cons c r =>
    have h1 : (String.mk (c :: r)).length = r.length + 1 := rfl
    have h2 : (String.mk (c :: r) == "") = false := by
      rw [beq_eq_false_iff_ne]
      intro h
      have := congrArg String.data h
      simp at this
    rw [h1, h2]
    simp

/-- Dropping the leading digits stops at the decimal point. -/
theorem dropWhile_digits_point (whole rest : List Char)
    (hw : ∀ c ∈ whole, c.isDigit = true) :
    (whole ++ '.' :: rest).dropWhile Char.isDigit = '.' :: rest := by
  induction whole with
  | nil =>
    have hp : Char.isDigit '.' = false := by decide
    simp [List.dropWhile, hp]
  | cons c r ih =>
    have hc : c.isDigit = true := hw c (by simp)
    have hr : ∀ d ∈ r, d.isDigit = true := fun d hd => hw d (by simp [hd])
    simp [List.dropWhile, hc, ih hr]

/-- The unsigned part of the numeric pattern, spelled out. -/
theorem unsignedNumeric_iff (cs : List Char) :
    unsignedNumeric cs = true ↔
      ∃ lead digits : List Char, cs = lead ++ digits ∧
        (lead = [] ∨ ∃ whole : List Char, lead = whole ++ ['.'] ∧
          ∀ c ∈ whole, c.isDigit = true) ∧
        digits ≠ [] ∧ ∀ c ∈ digits, c.isDigit = true := by
  constructor
  · intro h
    have hsplit : cs.takeWhile Char.isDigit ++ cs.dropWhile Char.isDigit = cs :=
      List.takeWhile_append_dropWhile _ _
    have htake : ∀ c ∈ cs.takeWhile Char.isDigit, c.isDigit = true :=
      fun c hc => List.mem_takeWhile_imp hc
    unfold unsignedNumeric at h
    split at h
    · rename_i hd
      refine ⟨[], cs.takeWhile Char.isDigit, ?_, Or.inl rfl, ?_, htake⟩
      · rw [hd, List.append_nil] at hsplit
        simp [hsplit]
      · intro hnil
        simp [hnil] at h
    · rename_i frac hd
      simp only [Bool.and_eq_true, Bool.not_eq_true', List.all_eq_true] at h
      refine ⟨cs.takeWhile Char.isDigit ++ ['.'], frac, ?_, Or.inr ⟨_, rfl, htake⟩, ?_, h.2⟩
      · rw [hd] at hsplit
        have hassoc : cs.takeWhile Char.isDigit ++ ['.'] ++ frac =
            cs.takeWhile Char.isDigit ++ '.' :: frac := by simp
        rw [hassoc]
        exact hsplit.symm
      · intro hnil
        simp [hnil] at h
    · exact absurd h (by simp)
  · rintro ⟨lead, digits, rfl, hlead, hne, hdig⟩
    rcases hlead with rfl | ⟨whole, rfl, hw⟩
    · have hdrop : digits.dropWhile Char.isDigit = [] := by
        rw [List.dropWhile_eq_nil_iff]
        exact hdig
      have htake : digits.takeWhile Char.isDigit = digits := by
        rw [List.takeWhile_eq_self_iff]
        exact hdig
      simp [unsignedNumeric, hdrop, htake, hne]
    · have hdrop : (whole ++ ['.'] ++ digits).dropWhile Char.isDigit = '.' :: digits := by
        have := dropWhile_digits_point whole digits hw
        simpa using this
      unfold unsignedNumeric
      rw [hdrop]
      simp [hne]
      exact hdig

/-- Nothing is stripped from a string that does not start with a sign. -/
theorem stripSign_of_not_sign (c : Char) (r : List Char) (hp : c ≠ '+') (hm : c ≠ '-') :
    stripSign (c :: r) = c :: r := by
  unfold stripSign
  split
  · rename_i heq
    simp at heq
    exact absurd heq.1 hp
  · rename_i heq
    simp at heq
    exact absurd heq.1 hm
  · rfl

/-- A digit is not a sign. -/
theorem digit_not_sign (c : Char) (h : c.isDigit = true) : c ≠ '+' ∧ c ≠ '-' := by
  constructor
  · rintro rfl
    exact absurd h (by decide)
  · rintro rfl
    exact absurd h (by decide)

/-- The numeric pattern accepts exactly the optionally signed decimal
numerals. -/
theorem isNumericChars_iff (cs : List Char) :
    isNumericChars cs = true ↔ DecimalNumeral cs := by
  unfold isNumericChars DecimalNumeral
  constructor
  · intro h
    cases cs with
    | nil =>
      obtain ⟨lead, digits, h1, h2, h3, h4⟩ := (unsignedNumeric_iff _).1 h
      exact ⟨[], lead, digits, by simpa [stripSign] using h1, Or.inl rfl, h2, h3, h4⟩
    | cons c r =>
      by_cases hp : c = '+'
      · subst hp
        obtain ⟨lead, digits, h1, h2, h3, h4⟩ := (unsignedNumeric_iff _).1 h
        refine ⟨['+'], lead, digits, ?_, Or.inr (Or.inl rfl), h2, h3, h4⟩
        have : stripSign ('+' :: r) = r := rfl
        rw [this] at h1
        simp [h1]
      · by_cases hm : c = '-'
        · subst hm
          obtain ⟨lead, digits, h1, h2, h3, h4⟩ := (unsignedNumeric_iff _).1 h
          refine ⟨['-'], lead, digits, ?_, Or.inr (Or.inr rfl), h2, h3, h4⟩
          have : stripSign ('-' :: r) = r := rfl
          rw [this] at h1
          simp [h1]
        · rw [stripSign_of_not_sign c r hp hm] at h
          obtain ⟨lead, digits, h1, h2, h3, h4⟩ := (unsignedNumeric_iff _).1 h
          exact ⟨[], lead, digits, by simpa using h1, Or.inl rfl, h2, h3, h4⟩
  · rintro ⟨sign, lead, digits, rfl, hsign, hlead, hne, hdig⟩
    have hrest : unsignedNumeric (lead ++ digits) = true :=
      (unsignedNumeric_iff _).2 ⟨lead, digits, rfl, hlead, hne, hdig⟩
    rcases hsign with rfl | rfl | rfl
    · have hstrip : stripSign ([] ++ lead ++ digits) = lead ++ digits := by
        rcases hlead with rfl | ⟨whole, rfl, hw⟩
        · cases digits with
          | nil => exact absurd rfl hne
          | cons d ds =>
            have hd := digit_not_sign d (hdig d (by simp))
            simpa using stripSign_of_not_sign d ds hd.1 hd.2
        · cases whole with
          | nil =>
            simpa using stripSign_of_not_sign '.' digits (by decide) (by decide)
          | cons w ws =>
            have hd := digit_not_sign w (hw w (by simp))
            simpa using stripSign_of_not_sign w (ws ++ ['.'] ++ digits) hd.1 hd.2
      rw [hstrip]
      exact hrest
    · exact hrest
    · exact hrest

/-! ## Field selection -/

/-- The five instances `check(field)` selects. -/
theorem selectFields_eq (req : Request) (f : String) :
    selectFields req f =
      [{ location := Location.body, value := fieldOf req.body f },
       { location := Location.cookies, value := req.lookup Location.cookies f },
       { location := Location.headers, value := req.lookup Location.headers f },
       { location := Location.params, value := req.lookup Location.params f },
       { location := Location.query, value := req.lookup Location.query f }] := by
  simp [selectFields, checkLocations, Request.lookup, Request.part]

/-- For a field that occurs in the body only, the body instance is the one
validated, unless the chain is optional and the field is absent. -/
theorem getData_bodyOnly (ch : Chain) (req : Request) (f : String)
    (h : req.bodyOnly f = true) :
    ch.getData (selectFields req f) =
      if ch.optional && (fieldOf req.body f).isNone then []
      else [{ location := Location.body, value := fieldOf req.body f }] := by
  simp only [Request.bodyOnly, Bool.and_eq_true, Option.isNone_iff_eq_none] at h
  obtain ⟨⟨⟨h1, h2⟩, h3⟩, h4⟩ := h
  rw [selectFields_eq, h1, h2, h3, h4]
  rcases hb : fieldOf req.body f with _ | v <;> cases hopt : ch.optional <;>
    simp [Chain.getData, hopt]

/-- A defined instance is always among the instances validated. -/
theorem mem_getData_of_defined (ch : Chain) (instances : List FieldInstance)
    (inst : FieldInstance) (hmem : inst ∈ instances) (hdef : inst.value.isSome = true) :
    inst ∈ ch.getData instances := by
  have hf : inst ∈ instances.filter (fun i => i.value.isSome) :=
    List.mem_filter.2 ⟨hmem, hdef⟩
  have hne : (instances.filter (fun i => i.value.isSome)).isEmpty = false := by
    cases hl : instances.filter (fun i => i.value.isSome) with
    | nil => rw [hl] at hf; exact absurd hf (by simp)
    | cons a r => rfl
  have hf' := List.mem_filter.1 hf
  unfold Chain.getData
  by_cases hlen : instances.length > 1
  · cases hopt : ch.optional
    · simp only [hlen, hne, if_true, Bool.false_eq_true, if_false]
      exact hf
    · simp only [hlen, hne, if_true, Bool.false_eq_true, if_false]
      exact List.mem_filter.2 ⟨hf, hdef⟩
  · cases hopt : ch.optional
    · simp only [hlen, if_false, Bool.false_eq_true]
      exact hmem
    · simp only [hlen, if_false, if_true]
      exact hf

/-- The errors of a validated instance are errors of the chain. -/
theorem mem_run_of_mem_check (ver : Version) (ch : Chain) (req : Request)
    (inst : FieldInstance) (e : ValidationError)
    (hinst : inst ∈ ch.getData (selectFields req ch.field)) (he : e ∈ ch.check ver inst) :
    e ∈ ch.run ver req := by
  unfold Chain.run
  rw [List.mem_flatten]
  exact ⟨ch.check ver inst, List.mem_map.2 ⟨inst, hinst, rfl⟩, he⟩

/-- Every error of a chain names the chain's field. -/
theorem param_of_mem_run (ver : Version) (ch : Chain) (req : Request) (e : ValidationError)
    (he : e ∈ ch.run ver req) : e.param = ch.field := by
  unfold Chain.run at he
  rw [List.mem_flatten] at he
  obtain ⟨l, hl, hel⟩ := he
  obtain ⟨inst, _, rfl⟩ := List.mem_map.1 hl
  have key : ∀ (c : Bool) (x : ValidationError), e ∈ (if c = true then [x] else []) → e = x := by
    intro c x h
    cases c
    · exact absurd h (by simp)
    · simpa using h
  cases ver with
  | v6 =>
    simp only [Chain.check] at hel
    rw [key _ _ hel]; rfl
  | v7 =>
    simp only [Chain.check] at hel
    rw [List.mem_flatten] at hel
    obtain ⟨l', hl', hel'⟩ := hel
    obtain ⟨v, _, rfl⟩ := List.mem_map.1 hl'
    rw [key _ _ hel']; rfl

/-- On a value that is not an array both versions run the validator once, on
the string of the value. -/
theorem check_not_array (ver : Version) (ch : Chain) (loc : Location) (v : Option JVal)
    (h : isArray v = false) :
    ch.check ver { location := loc, value := v } =
      entryIf (if ch.negated then ch.validator.test (toStr v)
        else !ch.validator.test (toStr v)) (ch.error loc v) := by
  have hdeep : toStrDeep v = toStr v := by
    unfold toStrDeep
    split
    · simp [isArray] at h
    · rfl
  have hvals : valuesOf v = [v] := by
    unfold valuesOf
    split
    · simp [isArray] at h
    · rfl
  cases ver with
  | v6 => simp [Chain.check, hdeep, entryIf]
  | v7 => simp [Chain.check, hvals, entryIf]

/-- A chain on a field that occurs in the body only and is not an array. -/
theorem run_plain (ver : Version) (ch : Chain) (req : Request)
    (h : req.plain ch.field = true) :
    ch.run ver req =
      if ch.optional && (fieldOf req.body ch.field).isNone then []
      else entryIf (if ch.negated then ch.validator.test (toStr (fieldOf req.body ch.field))
          else !ch.validator.test (toStr (fieldOf req.body ch.field)))
        (ch.error Location.body (fieldOf req.body ch.field)) := by
  simp only [Request.plain, Bool.and_eq_true, Bool.not_eq_true'] at h
  unfold Chain.run
  rw [getData_bodyOnly ch req ch.field h.1]
  split
  · rfl
  · simp [check_not_array ver ch Location.body _ h.2]

/-! ## The rules, one chain at a time -/

/-- The emptiness validator on the string of a value that is not an array. -/
theorem isEmpty_toStr (v : Option JVal) (h : isArray v = false) :
    isEmpty false (toStr v) = missingOrEmpty v := by
  rcases v with _ | w
  · decide
  · cases w with
    | null => decide
    | bool b => cases b <;> decide
    | num t => simp [toStr, JVal.text, isEmpty, missingOrEmpty, length_beq_zero]
    | str s => simp [toStr, JVal.text, isEmpty, missingOrEmpty, length_beq_zero]
    | arr items => simp [isArray] at h
    | obj fields =>
      have : toStr (some (JVal.obj fields)) = "[object Object]" := by simp [toStr, JVal.text]
      have hm : missingOrEmpty (some (JVal.obj fields)) = false := rfl
      rw [this, hm]
      decide

/-- The numeric validator on the string of a value that is not an array
accepts exactly the values whose string form is a decimal numeral. -/
theorem isNumeric_toStr_iff (v : Option JVal) (h : isArray v = false) :
    isNumeric (toStr v) = true ↔ DecimalValue v := by
  have hnull : ¬ DecimalNumeral JVal.null.text.data := by
    rw [← isNumericChars_iff]
    decide
  rcases v with _ | w
  · constructor
    · intro h'
      exact absurd h' (by decide)
    · rintro ⟨w, hw, _⟩
      exact absurd hw (by simp)
  · by_cases hw : w = JVal.null
    · subst hw
      constructor
      · intro h'
        exact absurd h' (by decide)
      · rintro ⟨w, hw, hd⟩
        cases hw
        exact absurd hd hnull
    · have ht : toStr (some w) = w.text := by
        cases w <;> first | rfl | exact absurd rfl hw
      rw [ht]
      unfold isNumeric
      rw [isNumericChars_iff]
      constructor
      · intro hd
        exact ⟨w, rfl, hd⟩
      · rintro ⟨w', hw', hd⟩
        cases hw'
        exact hd

/-- The create chain on a plain name fails exactly on a missing or empty
name. -/
theorem createName_run (ver : Version) (req : Request) (h : req.plain "name" = true) :
    createName.run ver req =
      entryIf (missingOrEmpty (fieldOf req.body "name"))
        { param := "name", msg := "Name is required", value := fieldOf req.body "name",
          location := Location.body } := by
  have hp : isArray (fieldOf req.body "name") = false := by
    simp only [Request.plain, Bool.and_eq_true, Bool.not_eq_true'] at h
    exact h.2
  have := run_plain ver createName req h
  simpa [createName, StdValidator.test, isEmpty_toStr _ hp, Chain.error] using this

/-- The create chain on a plain description fails exactly on a missing or
empty description. -/
theorem createDescription_run (ver : Version) (req : Request)
    (h : req.plain "description" = true) :
    createDescription.run ver req =
      entryIf (missingOrEmpty (fieldOf req.body "description"))
        { param := "description", msg := "Description is required",
          value := fieldOf req.body "description", location := Location.body } := by
  have hp : isArray (fieldOf req.body "description") = false := by
    simp only [Request.plain, Bool.and_eq_true, Bool.not_eq_true'] at h
    exact h.2
  have := run_plain ver createDescription req h
  simpa [createDescription, StdValidator.test, isEmpty_toStr _ hp, Chain.error] using this

/-- The create chain on a plain price fails exactly when the numeric
validator refuses the string of the price. -/
theorem createPrice_run (ver : Version) (req : Request) (h : req.plain "price" = true) :
    createPrice.run ver req =
      entryIf (!isNumeric (toStr (fieldOf req.body "price")))
        { param := "price", msg := "Price is required and must be a number",
          value := fieldOf req.body "price", location := Location.body } := by
  have := run_plain ver createPrice req h
  simpa [createPrice, StdValidator.test, Chain.error] using this

/-- The update chain on a plain name fails exactly on a present, empty
name. -/
theorem updateName_run (ver : Version) (req : Request) (h : req.plain "name" = true) :
    updateName.run ver req =
      entryIf ((fieldOf req.body "name").isSome && missingOrEmpty (fieldOf req.body "name"))
        { param := "name", msg := "Name is required", value := fieldOf req.body "name",
          location := Location.body } := by
  have hp : isArray (fieldOf req.body "name") = false := by
    simp only [Request.plain, Bool.and_eq_true, Bool.not_eq_true'] at h
    exact h.2
  have := run_plain ver updateName req h
  rw [this]
  simp only [updateName]
  rcases hv : fieldOf req.body "name" with _ | v
  · simp [entryIf]
  · rw [hv] at hp
    simp [StdValidator.test, isEmpty_toStr _ hp, Chain.error]

/-- The update chain on a plain description fails exactly on a present,
empty description. -/
theorem updateDescription_run (ver : Version) (req : Request)
    (h : req.plain "description" = true) :
    updateDescription.run ver req =
      entryIf ((fieldOf req.body "description").isSome &&
          missingOrEmpty (fieldOf req.body "description"))
        { param := "description", msg := "Description is required",
          value := fieldOf req.body "description", location := Location.body } := by
  have hp : isArray (fieldOf req.body "description") = false := by
    simp only [Request.plain, Bool.and_eq_true, Bool.not_eq_true'] at h
    exact h.2
  have := run_plain ver updateDescription req h
  rw [this]
  simp only [updateDescription]
  rcases hv : fieldOf req.body "description" with _ | v
  · simp [entryIf]
  · rw [hv] at hp
    simp [StdValidator.test, isEmpty_toStr _ hp, Chain.error]

/-- The update chain on a plain price fails exactly when the price is
present and the numeric validator refuses its string. -/
theorem updatePrice_run (ver : Version) (req : Request) (h : req.plain "price" = true) :
    updatePrice.run ver req =
      entryIf ((fieldOf req.body "price").isSome &&
          !isNumeric (toStr (fieldOf req.body "price")))
        { param := "price", msg := "Price must be a number",
          value := fieldOf req.body "price", location := Location.body } := by
  have := run_plain ver updatePrice req h
  rw [this]
  simp only [updatePrice]
  rcases hv : fieldOf req.body "price" with _ | v
  · simp [entryIf]
  · simp [StdValidator.test, Chain.error]

/-! ## Entries of a result -/

/-- A result with an entry is not empty. -/
theorem hasEntry_ne_nil (errs : List ValidationError) (field : String)
    (h : hasEntry errs field = true) : errs ≠ [] := by
  rintro rfl
  simp [hasEntry] at h

/-- An entry of a chain whose field is the one asked for. -/
theorem hasEntry_run (ver : Version) (ch : Chain) (req : Request) (f : String) :
    hasEntry (ch.run ver req) f = (decide (ch.field = f) && !(ch.run ver req).isEmpty) := by
  by_cases hf : ch.field = f
  · cases hr : ch.run ver req with
    | nil => simp [hasEntry]
    | cons e r =>
      have he : e.param = f := by
        rw [← hf]
        exact param_of_mem_run ver ch req e (by rw [hr]; simp)
      simp [hasEntry, he, hf]
  · have : ∀ e ∈ ch.run ver req, ¬ e.param = f := by
      intro e he hp
      exact hf ((param_of_mem_run ver ch req e he).symm.trans hp)
    simp [hasEntry, hf]
    exact this

/-- The create result has an entry for name exactly when the chain on name
recorded an error. -/
theorem hasEntry_create_name (ver : Version) (req : Request) :
    hasEntry (validate ver createRules req) "name" = !(createName.run ver req).isEmpty := by
  have h1 := hasEntry_run ver createName req "name"
  have h2 := hasEntry_run ver createDescription req "name"
  have h3 := hasEntry_run ver createPrice req "name"
  rw [validate_createRules]
  simp only [hasEntry, List.any_append] at *
  rw [h1, h2, h3]
  simp [createName, createDescription, createPrice]

/-- The create result has an entry for description exactly when the chain on
description recorded an error. -/
theorem hasEntry_create_description (ver : Version) (req : Request) :
    hasEntry (validate ver createRules req) "description" =
      !(createDescription.run ver req).isEmpty := by
  have h1 := hasEntry_run ver createName req "description"
  have h2 := hasEntry_run ver createDescription req "description"
  have h3 := hasEntry_run ver createPrice req "description"
  rw [validate_createRules]
  simp only [hasEntry, List.any_append] at *
  rw [h1, h2, h3]
  simp [createName, createDescription, createPrice]

/-- The create result has an entry for price exactly when the chain on price
recorded an error. -/
theorem hasEntry_create_price (ver : Version) (req : Request) :
    hasEntry (validate ver createRules req) "price" = !(createPrice.run ver req).isEmpty := by
  have h1 := hasEntry_run ver createName req "price"
  have h2 := hasEntry_run ver createDescription req "price"
  have h3 := hasEntry_run ver createPrice req "price"
  rw [validate_createRules]
  simp only [hasEntry, List.any_append] at *
  rw [h1, h2, h3]
  simp [createName, createDescription, createPrice]

/-- The update result has an entry for name exactly when the chain on name
recorded an error. -/
theorem hasEntry_update_name (ver : Version) (req : Request) :
    hasEntry (validate ver updateRules req) "name" = !(updateName.run ver req).isEmpty := by
  have h1 := hasEntry_run ver updateName req "name"
  have h2 := hasEntry_run ver updateDescription req "name"
  have h3 := hasEntry_run ver updatePrice req "name"
  rw [validate_updateRules]
  simp only [hasEntry, List.any_append] at *
  rw [h1, h2, h3]
  simp [updateName, updateDescription, updatePrice]

/-- The update result has an entry for description exactly when the chain on
description recorded an error. -/
theorem hasEntry_update_description (ver : Version) (req : Request) :
    hasEntry (validate ver updateRules req) "description" =
      !(updateDescription.run ver req).isEmpty := by
  have h1 := hasEntry_run ver updateName req "description"
  have h2 := hasEntry_run ver updateDescription req "description"
  have h3 := hasEntry_run ver updatePrice req "description"
  rw [validate_updateRules]
  simp only [hasEntry, List.any_append] at *
  rw [h1, h2, h3]
  simp [updateName, updateDescription, updatePrice]

/-- The update result has an entry for price exactly when the chain on price
recorded an error. -/
theorem hasEntry_update_price (ver : Version) (req : Request) :
    hasEntry (validate ver updateRules req) "price" = !(updatePrice.run ver req).isEmpty := by
  have h1 := hasEntry_run ver updateName req "price"
  have h2 := hasEntry_run ver updateDescription req "price"
  have h3 := hasEntry_run ver updatePrice req "price"
  rw [validate_updateRules]
  simp only [hasEntry, List.any_append] at *
  rw [h1, h2, h3]
  simp [updateName, updateDescription, updatePrice]

/-! ## Role gate -/

/-- C1: for a request whose identity is not an admin, whatever its body and
id, PUT and DELETE answer 403 with the message "Access denied: Admins only";
only the authentication gate and the role gate ran, so no field was
validated, no persistence call was made and the store is as before.  For an
admin the role gate sends no response and passes the request on. -/
theorem C1_role_gate {σ : Type} (ver : Version) (db : Persistence σ) (req : Request)
    (store : σ) (u : Identity) (hid : req.identity = some u) :
    (u.isAdmin = false →
      ((serve (putRoute ver db) req store).response =
          some { status := 403, body := ResBody.msg "Access denied: Admins only" } ∧
        (serve (putRoute ver db) req store).ctx.trace = [Event.auth, Event.admin] ∧
        checkedFields (serve (putRoute ver db) req store).ctx.trace = [] ∧
        dbCalls (serve (putRoute ver db) req store).ctx.trace = [] ∧
        (serve (putRoute ver db) req store).ctx.store = store) ∧
      ((serve (deleteRoute db) req store).response =
          some { status := 403, body := ResBody.msg "Access denied: Admins only" } ∧
        (serve (deleteRoute db) req store).ctx.trace = [Event.auth, Event.admin] ∧
        checkedFields (serve (deleteRoute db) req store).ctx.trace = [] ∧
        dbCalls (serve (deleteRoute db) req store).ctx.trace = [] ∧
        (serve (deleteRoute db) req store).ctx.store = store)) ∧
    (u.isAdmin = true →
      ∀ c : Ctx σ, c.user = some u → adminMiddleware c = Step.next (c.mark Event.admin)) := by
  constructor
  · intro hadmin
    obtain ⟨hp1, hp2, hp3⟩ := put_non_admin ver db req store u hid hadmin
    obtain ⟨hd1, hd2, hd3⟩ := delete_non_admin db req store u hid hadmin
    refine ⟨⟨hp1, hp2, ?_, ?_, hp3⟩, ⟨hd1, hd2, ?_, ?_, hd3⟩⟩
    · rw [hp2]; rfl
    · rw [hp2]; rfl
    · rw [hd2]; rfl
    · rw [hd2]; rfl
  · intro hadmin c hc
    simp [adminMiddleware, Ctx.mark, hc, hadmin]

/-- C1 at a concrete request: a non-admin's PUT of a valid body is answered
403 before anything is validated or stored. -/
theorem C1_role_gate_witness :
    (bodyRequest member "0" [("price", JVal.num "5")]).identity = some member ∧
    member.isAdmin = false ∧
    (serve (putRoute Version.v7 memoryDb) (bodyRequest member "0" [("price", JVal.num "5")])
        shelf).response =
      some { status := 403, body := ResBody.msg "Access denied: Admins only" } ∧
    (serve (putRoute Version.v7 memoryDb) (bodyRequest member "0" [("price", JVal.num "5")])
        shelf).ctx.store = shelf :=
  ⟨rfl, rfl,
    ((C1_role_gate Version.v7 memoryDb (bodyRequest member "0" [("price", JVal.num "5")]) shelf
      member rfl).1 rfl).1.1,
    ((C1_role_gate Version.v7 memoryDb (bodyRequest member "0" [("price", JVal.num "5")]) shelf
      member rfl).1 rfl).1.2.2.2.2⟩

/-! ## Create rules -/

/-- C2, as the spec words it, fails in three ways.  A price that is the
number 1e21 is numeric, yet it gets an entry.  A name sent in the query
string and missing from the body gets no entry, and the product is created.
Under version 7 a name that is an array of two empty strings gets two
entries, and a price that is the empty array gets none. -/
theorem C2_create_counterexample :
    (interpretableAsNumber (JVal.num "1e+21") = true ∧
      ∀ ver, validate ver createRules (bodyRequest member "" [("name", JVal.str "Widget"),
          ("description", JVal.str "A widget"), ("price", JVal.num "1e+21")]) =
        [{ param := "price", msg := "Price is required and must be a number",
           value := some (JVal.num "1e+21"), location := Location.body }]) ∧
    (fieldOf [("description", JVal.str "A widget"), ("price", JVal.str "9.99")] "name" = none ∧
      ∀ ver, validate ver createRules
          { identity := some member, id := "",
            body := [("description", JVal.str "A widget"), ("price", JVal.str "9.99")],
            cookies := [], headers := [], query := [("name", JVal.str "Widget")] } = [] ∧
        (serve (postRoute ver memoryDb)
          { identity := some member, id := "",
            body := [("description", JVal.str "A widget"), ("price", JVal.str "9.99")],
            cookies := [], headers := [], query := [("name", JVal.str "Widget")] }
          shelf).response.map (fun r => r.status) = some 201) ∧
    validate Version.v7 createRules (bodyRequest member ""
        [("name", JVal.arr (JList.ofList [JVal.str "", JVal.str ""])),
         ("description", JVal.str "A widget"), ("price", JVal.arr JList.nil)]) =
      [{ param := "name", msg := "Name is required", value := some (JVal.str ""),
         location := Location.body },
       { param := "name", msg := "Name is required", value := some (JVal.str ""),
         location := Location.body }] := by
  refine ⟨⟨by decide, ?_⟩, ⟨by decide, ?_⟩, by decide⟩
  · intro ver
    cases ver <;> decide
  · intro ver
    cases ver <;> decide

/-- C2, amended: for every POST request in which name, description and price
occur in no location other than the body and are not arrays there, the
validation result is the entry for name if name is absent, null or the empty
string, then the entry for description likewise, then the entry for price if
the string form of the price is not an optionally signed decimal numeral (an
absent price included), each at most once, with the declared messages and no
other entry.  For every POST request, whenever the result is not empty the
response is 400 carrying that list and nothing is stored. -/
theorem C2_create_validation {σ : Type} (ver : Version) (db : Persistence σ) (req : Request)
    (store : σ) (u : Identity) (hid : req.identity = some u) :
    (req.plain "name" = true → req.plain "description" = true → req.plain "price" = true →
      ∃ p : List ValidationError,
        validate ver createRules req =
          entryIf (missingOrEmpty (fieldOf req.body "name"))
            { param := "name", msg := "Name is required", value := fieldOf req.body "name",
              location := Location.body } ++
          (entryIf (missingOrEmpty (fieldOf req.body "description"))
            { param := "description", msg := "Description is required",
              value := fieldOf req.body "description", location := Location.body } ++ p) ∧
        (p = [] ∨
          p = [{ param := "price", msg := "Price is required and must be a number",
                 value := fieldOf req.body "price", location := Location.body }]) ∧
        (p = [] ↔ DecimalValue (fieldOf req.body "price"))) ∧
    (validate ver createRules req ≠ [] →
      (serve (postRoute ver db) req store).response =
        some { status := 400, body := ResBody.errors (validate ver createRules req) } ∧
      dbCalls (serve (postRoute ver db) req store).ctx.trace = [] ∧
      (serve (postRoute ver db) req store).ctx.store = store) := by
  constructor
  · intro hn hd hp
    refine ⟨createPrice.run ver req, ?_, ?_, ?_⟩
    · rw [validate_createRules, createName_run ver req hn, createDescription_run ver req hd]
    · rw [createPrice_run ver req hp]
      cases (!isNumeric (toStr (fieldOf req.body "price"))) <;> simp [entryIf]
    · have harr : isArray (fieldOf req.body "price") = false := by
        simp only [Request.plain, Bool.and_eq_true, Bool.not_eq_true'] at hp
        exact hp.2
      rw [createPrice_run ver req hp, ← isNumeric_toStr_iff _ harr]
      cases isNumeric (toStr (fieldOf req.body "price")) <;> simp [entryIf]
  · intro hne
    obtain ⟨h1, h2, h3⟩ := post_invalid ver db req store u hid hne
    refine ⟨h1, ?_, h3⟩
    rw [h2]; rfl

/-- C2 amended, at the body with an empty name and price 5: 400 with the
entries for name and description, in that order, and none for price. -/
theorem C2_create_validation_witness :
    (bodyRequest member "" [("name", JVal.str ""), ("price", JVal.num "5")]).identity =
      some member ∧
    (serve (postRoute Version.v7 memoryDb)
        (bodyRequest member "" [("name", JVal.str ""), ("price", JVal.num "5")])
        shelf).response =
      some (Response.mk 400 (ResBody.errors
        [{ param := "name", msg := "Name is required", value := some (JVal.str ""),
           location := Location.body },
         { param := "description", msg := "Description is required", value := none,
           location := Location.body }])) :=
  ⟨rfl,
    ((C2_create_validation Version.v7 memoryDb
      (bodyRequest member "" [("name", JVal.str ""), ("price", JVal.num "5")]) shelf
      member rfl).2 (by decide)).1⟩

/-- An error recorded for the value a field has in the body is an error of
the chain, whatever the other locations hold. -/
theorem mem_run_of_body_value (ver : Version) (ch : Chain) (req : Request) (v : JVal)
    (e : ValidationError) (hv : fieldOf req.body ch.field = some v)
    (he : e ∈ ch.check ver { location := Location.body, value := some v }) :
    e ∈ ch.run ver req := by
  have hsel : ({ location := Location.body, value := some v } : FieldInstance) ∈
      selectFields req ch.field := by
    rw [selectFields_eq, hv]
    simp
  exact mem_run_of_mem_check ver ch req _ e
    (mem_getData_of_defined ch _ _ hsel rfl) he

/-- An error of a rule is an entry of the validation result. -/
theorem mem_validate_of_mem_run (ver : Version) (rules : List Chain) (ch : Chain)
    (req : Request) (e : ValidationError) (hch : ch ∈ rules) (he : e ∈ ch.run ver req) :
    e ∈ validate ver rules req := by
  unfold validate
  rw [List.mem_flatten]
  exact ⟨ch.run ver req, List.mem_map.2 ⟨ch, hch, rfl⟩, he⟩

/-- A field absent from the whole request is plain. -/
theorem plain_of_absent (req : Request) (f : String) (h : req.absent f = true) :
    req.plain f = true ∧ fieldOf req.body f = none := by
  simp only [Request.absent, Bool.and_eq_true, Option.isNone_iff_eq_none] at h
  refine ⟨?_, h.1⟩
  simp [Request.plain, h.2, h.1, isArray]

/-- A field that occurs in the body only, as a string, is plain. -/
theorem plain_of_string (req : Request) (f s : String) (h : req.bodyOnly f = true)
    (hv : fieldOf req.body f = some (JVal.str s)) : req.plain f = true := by
  simp [Request.plain, h, hv, isArray]

/-- C3, as the spec words it, fails in two ways.  A name of three blanks is
whitespace only, yet the create rules record no entry and the product is
created.  A name missing from the body and sent in the query string gets no
entry either. -/
theorem C3_whitespace_counterexample :
    (whitespaceOnly "   " = true ∧
      ∀ ver, validate ver createRules (bodyRequest member "" [("name", JVal.str "   "),
          ("description", JVal.str "A widget"), ("price", JVal.str "9.99")]) = [] ∧
        (serve (postRoute ver memoryDb)
          (bodyRequest member "" [("name", JVal.str "   "),
            ("description", JVal.str "A widget"), ("price", JVal.str "9.99")])
          shelf).response.map (fun r => r.status) = some 201) ∧
    (fieldOf [("description", JVal.str "A widget"), ("price", JVal.str "9.99")] "name" = none ∧
      ∀ ver, hasEntry (validate ver createRules
          { identity := some member, id := "",
            body := [("description", JVal.str "A widget"), ("price", JVal.str "9.99")],
            cookies := [], headers := [], query := [("name", JVal.str "Widget")] })
        "name" = false) := by
  refine ⟨⟨by decide, ?_⟩, by decide, ?_⟩
  · intro ver
    cases ver <;> decide
  · intro ver
    cases ver <;> decide

/-- C3, amended: for every POST request the rule on name (and likewise the
rule on description) fails when the field is the empty string in the body,
and when it is absent from every location of the request; the response is
then 400 with an entry for that field.  A string that is not empty, a
whitespace-only one included, in a field that occurs in the body only, passes
the rule and gets no entry. -/
theorem C3_required_non_empty {σ : Type} (ver : Version) (db : Persistence σ) (req : Request)
    (store : σ) (u : Identity) (hid : req.identity = some u) :
    ((fieldOf req.body "name" = some (JVal.str "") ∨ req.absent "name" = true) →
      hasEntry (validate ver createRules req) "name" = true ∧
      (serve (postRoute ver db) req store).response =
        some { status := 400, body := ResBody.errors (validate ver createRules req) }) ∧
    ((fieldOf req.body "description" = some (JVal.str "") ∨
        req.absent "description" = true) →
      hasEntry (validate ver createRules req) "description" = true ∧
      (serve (postRoute ver db) req store).response =
        some { status := 400, body := ResBody.errors (validate ver createRules req) }) ∧
    (∀ s : String, fieldOf req.body "name" = some (JVal.str s) → req.bodyOnly "name" = true →
      s ≠ "" → hasEntry (validate ver createRules req) "name" = false) ∧
    (∀ s : String, fieldOf req.body "name" = some (JVal.str s) → req.bodyOnly "name" = true →
      whitespaceOnly s = true → hasEntry (validate ver createRules req) "name" = false) ∧
    (∀ s : String, fieldOf req.body "description" = some (JVal.str s) →
      req.bodyOnly "description" = true →
      s ≠ "" → hasEntry (validate ver createRules req) "description" = false) ∧
    (∀ s : String, fieldOf req.body "description" = some (JVal.str s) →
      req.bodyOnly "description" = true →
      whitespaceOnly s = true →
      hasEntry (validate ver createRules req) "description" = false) := by
  have hws : ∀ s : String, whitespaceOnly s = true → s ≠ "" := by
    intro s h
    simp [whitespaceOnly] at h
    exact h.1
  have hcheckN : ∀ ver : Version, createName.error Location.body (some (JVal.str "")) ∈
      createName.check ver { location := Location.body, value := some (JVal.str "") } := by
    intro ver
    cases ver <;> decide
  have hcheckD : ∀ ver : Version,
      createDescription.error Location.body (some (JVal.str "")) ∈
      createDescription.check ver
        { location := Location.body, value := some (JVal.str "") } := by
    intro ver
    cases ver <;> decide
  have hname : (fieldOf req.body "name" = some (JVal.str "") ∨ req.absent "name" = true) →
      hasEntry (validate ver createRules req) "name" = true := by
    intro h
    rw [hasEntry_create_name]
    rcases h with h | h
    · have hm := mem_run_of_body_value ver createName req _ _ h (hcheckN ver)
      cases hr : createName.run ver req with
      | nil => rw [hr] at hm; exact absurd hm (by simp)
      | cons a r => rfl
    · obtain ⟨hp, hv⟩ := plain_of_absent req "name" h
      rw [createName_run ver req hp, hv]
      rfl
  have hdesc : (fieldOf req.body "description" = some (JVal.str "") ∨
      req.absent "description" = true) →
      hasEntry (validate ver createRules req) "description" = true := by
    intro h
    rw [hasEntry_create_description]
    rcases h with h | h
    · have hm := mem_run_of_body_value ver createDescription req _ _ h (hcheckD ver)
      cases hr : createDescription.run ver req with
      | nil => rw [hr] at hm; exact absurd hm (by simp)
      | cons a r => rfl
    · obtain ⟨hp, hv⟩ := plain_of_absent req "description" h
      rw [createDescription_run ver req hp, hv]
      rfl
  refine ⟨?_, ?_, ?_, ?_, ?_, ?_⟩
  · intro h
    exact ⟨hname h, (post_invalid ver db req store u hid (hasEntry_ne_nil _ _ (hname h))).1⟩
  · intro h
    exact ⟨hdesc h, (post_invalid ver db req store u hid (hasEntry_ne_nil _ _ (hdesc h))).1⟩
  · intro s hs hb hne
    rw [hasEntry_create_name, createName_run ver req (plain_of_string req _ s hb hs), hs]
    simp [missingOrEmpty, entryIf, hne]
  · intro s hs hb hw
    rw [hasEntry_create_name, createName_run ver req (plain_of_string req _ s hb hs), hs]
    simp [missingOrEmpty, entryIf, hws s hw]
  · intro s hs hb hne
    rw [hasEntry_create_description,
      createDescription_run ver req (plain_of_string req _ s hb hs), hs]
    simp [missingOrEmpty, entryIf, hne]
  · intro s hs hb hw
    rw [hasEntry_create_description,
      createDescription_run ver req (plain_of_string req _ s hb hs), hs]
    simp [missingOrEmpty, entryIf, hws s hw]

/-- C3 amended, at a request without a name anywhere: 400 with an entry for
name. -/
theorem C3_required_non_empty_witness :
    (bodyRequest member "" [("description", JVal.str "A widget"),
      ("price", JVal.str "9.99")]).identity = some member ∧
    (bodyRequest member "" [("description", JVal.str "A widget"),
      ("price", JVal.str "9.99")]).absent "name" = true ∧
    (serve (postRoute Version.v6 memoryDb)
        (bodyRequest member "" [("description", JVal.str "A widget"),
          ("price", JVal.str "9.99")]) shelf).response =
      some (Response.mk 400 (ResBody.errors
        [{ param := "name", msg := "Name is required", value := none,
           location := Location.body }])) :=
  ⟨rfl, by decide,
    ((C3_required_non_empty Version.v6 memoryDb
      (bodyRequest member "" [("description", JVal.str "A widget"),
        ("price", JVal.str "9.99")]) shelf member rfl).1 (Or.inr (by decide))).2⟩

/-! ## Update rules -/

/-- C4, as the spec words it, fails in two ways.  A price that is the number
1e21 is numeric, yet the update rules give it an entry.  A body whose only
field is a valid price gets an entry for name when the query string carries
an empty name. -/
theorem C4_update_counterexample :
    (interpretableAsNumber (JVal.num "1e+21") = true ∧
      ∀ ver, validate ver updateRules (bodyRequest admin "0" [("price", JVal.num "1e+21")]) =
        [{ param := "price", msg := "Price must be a number",
           value := some (JVal.num "1e+21"), location := Location.body }]) ∧
    (∀ ver, validate ver updateRules
        { identity := some admin, id := "0", body := [("price", JVal.str "12.5")],
          cookies := [], headers := [], query := [("name", JVal.str "")] } =
      [{ param := "name", msg := "Name is required", value := some (JVal.str ""),
         location := Location.query }]) := by
  refine ⟨⟨by decide, ?_⟩, ?_⟩
  · intro ver
    cases ver <;> decide
  · intro ver
    cases ver <;> decide

/-- C4, amended: for every PUT request in which name, description and price
occur in no location other than the body, and each of them that is present
is valid on its own (name and description a non-empty string, price a number
or a string written as an optionally signed decimal numeral), the validation
result of the update rules is empty, whichever of the three fields are
present, none of them included. -/
theorem C4_update_valid_subset (ver : Version) (req : Request)
    (hbn : req.bodyOnly "name" = true) (hbd : req.bodyOnly "description" = true)
    (hbp : req.bodyOnly "price" = true)
    (hname : ∀ v, fieldOf req.body "name" = some v → nonEmptyString v = true)
    (hdesc : ∀ v, fieldOf req.body "description" = some v → nonEmptyString v = true)
    (hprice : ∀ v, fieldOf req.body "price" = some v → PlainNumeric v) :
    validate ver updateRules req = [] := by
  have hpn : req.plain "name" = true := by
    rcases h : fieldOf req.body "name" with _ | v
    · simp [Request.plain, hbn, h, isArray]
    · have := hname v h
      cases v <;> simp [nonEmptyString] at this
      simp [Request.plain, hbn, h, isArray]
  have hpd : req.plain "description" = true := by
    rcases h : fieldOf req.body "description" with _ | v
    · simp [Request.plain, hbd, h, isArray]
    · have := hdesc v h
      cases v <;> simp [nonEmptyString] at this
      simp [Request.plain, hbd, h, isArray]
  have hpp : req.plain "price" = true := by
    rcases h : fieldOf req.body "price" with _ | v
    · simp [Request.plain, hbp, h, isArray]
    · obtain ⟨hkind, _⟩ := hprice v h
      rcases hkind with ⟨t, rfl⟩ | ⟨s, rfl⟩ <;> simp [Request.plain, hbp, h, isArray]
  have hn : ((fieldOf req.body "name").isSome && missingOrEmpty (fieldOf req.body "name")) =
      false := by
    rcases h : fieldOf req.body "name" with _ | v
    · rfl
    · have := hname v h
      cases v <;> simp [nonEmptyString] at this
      simp [missingOrEmpty, this]
  have hd : ((fieldOf req.body "description").isSome &&
      missingOrEmpty (fieldOf req.body "description")) = false := by
    rcases h : fieldOf req.body "description" with _ | v
    · rfl
    · have := hdesc v h
      cases v <;> simp [nonEmptyString] at this
      simp [missingOrEmpty, this]
  have hp : ((fieldOf req.body "price").isSome &&
      !isNumeric (toStr (fieldOf req.body "price"))) = false := by
    rcases h : fieldOf req.body "price" with _ | v
    · rfl
    · have harr : isArray (some v) = false := by
        simp only [Request.plain, Bool.and_eq_true, Bool.not_eq_true'] at hpp
        rw [h] at hpp
        exact hpp.2
      have hnum : isNumeric (toStr (some v)) = true :=
        (isNumeric_toStr_iff (some v) harr).2 ⟨v, rfl, (hprice v h).2⟩
      simp [hnum]
  rw [validate_updateRules, updateName_run ver req hpn, updateDescription_run ver req hpd,
    updatePrice_run ver req hpp, hn, hd, hp]
  rfl

/-- C4 amended, at the request whose body carries a price only. -/
theorem C4_update_valid_subset_witness :
    (bodyRequest admin "0" [("price", JVal.num "12.5")]).bodyOnly "name" = true ∧
    (bodyRequest admin "0" [("price", JVal.num "12.5")]).bodyOnly "description" = true ∧
    (bodyRequest admin "0" [("price", JVal.num "12.5")]).bodyOnly "price" = true ∧
    (∀ v, fieldOf (bodyRequest admin "0" [("price", JVal.num "12.5")]).body "name" = some v →
      nonEmptyString v = true) ∧
    (∀ v, fieldOf (bodyRequest admin "0" [("price", JVal.num "12.5")]).body "description" =
      some v → nonEmptyString v = true) ∧
    (∀ v, fieldOf (bodyRequest admin "0" [("price", JVal.num "12.5")]).body "price" = some v →
      PlainNumeric v) ∧
    validate Version.v7 updateRules (bodyRequest admin "0" [("price", JVal.num "12.5")]) = [] :=
  have h1 : ∀ v, fieldOf (bodyRequest admin "0" [("price", JVal.num "12.5")]).body "name" =
      some v → nonEmptyString v = true := fun v h => by
    have hnone : fieldOf (bodyRequest admin "0" [("price", JVal.num "12.5")]).body "name" =
        none := by decide
    rw [hnone] at h
    exact absurd h (by simp)
  have h2 : ∀ v, fieldOf (bodyRequest admin "0" [("price", JVal.num "12.5")]).body
      "description" = some v → nonEmptyString v = true := fun v h => by
    have hnone : fieldOf (bodyRequest admin "0" [("price", JVal.num "12.5")]).body
        "description" = none := by decide
    rw [hnone] at h
    exact absurd h (by simp)
  have h3 : ∀ v, fieldOf (bodyRequest admin "0" [("price", JVal.num "12.5")]).body "price" =
      some v → PlainNumeric v := fun v h => by
    have hsome : fieldOf (bodyRequest admin "0" [("price", JVal.num "12.5")]).body "price" =
        some (JVal.num "12.5") := by decide
    rw [hsome] at h
    cases h
    exact ⟨Or.inl ⟨"12.5", rfl⟩, (isNumericChars_iff _).1 (by decide)⟩
  ⟨by decide, by decide, by decide, h1, h2, h3,
    C4_update_valid_subset Version.v7 (bodyRequest admin "0" [("price", JVal.num "12.5")])
      (by decide) (by decide) (by decide) h1 h2 h3⟩

/-- C5, as the spec words it, fails: an admin's PUT with an empty body has
no name in the body, yet an empty name in the query string is validated, gets
an entry and the request is answered 400. -/
theorem C5_optional_counterexample :
    fieldOf ([] : Body) "name" = none ∧
    ∀ ver,
      validate ver updateRules
          { identity := some admin, id := "0", body := [], cookies := [], headers := [],
            query := [("name", JVal.str "")] } =
        [{ param := "name", msg := "Name is required", value := some (JVal.str ""),
           location := Location.query }] ∧
      (serve (putRoute ver memoryDb)
          { identity := some admin, id := "0", body := [], cookies := [], headers := [],
            query := [("name", JVal.str "")] }
          shelf).response.map (fun r => r.status) = some 400 := by
  refine ⟨by decide, ?_⟩
  intro ver
  cases ver <;> decide

/-- C5, amended: under the update rules a name or description that is absent
from every location of the request produces no entry, but a name or
description that is present in the body as the empty string still fails its
rule: the admin's PUT is answered 400 with an entry for that field, nothing
is handed to persistence and the store is as before. -/
theorem C5_optional_present_empty {σ : Type} (ver : Version) (db : Persistence σ)
    (req : Request) (store : σ) (u : Identity) (hid : req.identity = some u)
    (hadmin : u.isAdmin = true) :
    (req.absent "name" = true → hasEntry (validate ver updateRules req) "name" = false) ∧
    (req.absent "description" = true →
      hasEntry (validate ver updateRules req) "description" = false) ∧
    (fieldOf req.body "name" = some (JVal.str "") →
      { param := "name", msg := "Name is required", value := some (JVal.str ""),
        location := Location.body } ∈ validate ver updateRules req ∧
      (serve (putRoute ver db) req store).response =
        some { status := 400, body := ResBody.errors (validate ver updateRules req) } ∧
      dbCalls (serve (putRoute ver db) req store).ctx.trace = [] ∧
      (serve (putRoute ver db) req store).ctx.store = store) ∧
    (fieldOf req.body "description" = some (JVal.str "") →
      { param := "description", msg := "Description is required",
        value := some (JVal.str ""), location := Location.body } ∈
          validate ver updateRules req ∧
      (serve (putRoute ver db) req store).response =
        some { status := 400, body := ResBody.errors (validate ver updateRules req) } ∧
      dbCalls (serve (putRoute ver db) req store).ctx.trace = [] ∧
      (serve (putRoute ver db) req store).ctx.store = store) := by
  have hcheckN : ∀ ver : Version, updateName.error Location.body (some (JVal.str "")) ∈
      updateName.check ver { location := Location.body, value := some (JVal.str "") } := by
    intro ver
    cases ver <;> decide
  have hcheckD : ∀ ver : Version,
      updateDescription.error Location.body (some (JVal.str "")) ∈
      updateDescription.check ver
        { location := Location.body, value := some (JVal.str "") } := by
    intro ver
    cases ver <;> decide
  refine ⟨?_, ?_, ?_, ?_⟩
  · intro h
    obtain ⟨hp, hv⟩ := plain_of_absent req "name" h
    rw [hasEntry_update_name, updateName_run ver req hp, hv]
    rfl
  · intro h
    obtain ⟨hp, hv⟩ := plain_of_absent req "description" h
    rw [hasEntry_update_description, updateDescription_run ver req hp, hv]
    rfl
  · intro h
    have hmem := mem_validate_of_mem_run ver updateRules updateName req _
      (by simp [updateRules]) (mem_run_of_body_value ver updateName req _ _ h (hcheckN ver))
    obtain ⟨h1, h2, h3⟩ := put_invalid ver db req store u hid hadmin (List.ne_nil_of_mem hmem)
    refine ⟨hmem, h1, ?_, h3⟩
    rw [h2]; rfl
  · intro h
    have hmem := mem_validate_of_mem_run ver updateRules updateDescription req _
      (by simp [updateRules])
      (mem_run_of_body_value ver updateDescription req _ _ h (hcheckD ver))
    obtain ⟨h1, h2, h3⟩ := put_invalid ver db req store u hid hadmin (List.ne_nil_of_mem hmem)
    refine ⟨hmem, h1, ?_, h3⟩
    rw [h2]; rfl

/-- C5 amended, at the admin's PUT of a body whose name is the empty string:
400 with the entry for name, and the stored product is untouched. -/
theorem C5_optional_present_empty_witness :
    (bodyRequest admin "0" [("name", JVal.str "")]).identity = some admin ∧
    admin.isAdmin = true ∧
    (serve (putRoute Version.v7 memoryDb) (bodyRequest admin "0" [("name", JVal.str "")])
        shelf).response =
      some (Response.mk 400 (ResBody.errors
        [{ param := "name", msg := "Name is required", value := some (JVal.str ""),
           location := Location.body }])) ∧
    (serve (putRoute Version.v7 memoryDb) (bodyRequest admin "0" [("name", JVal.str "")])
        shelf).ctx.store = shelf :=
  ⟨rfl, rfl,
    ((C5_optional_present_empty Version.v7 memoryDb
      (bodyRequest admin "0" [("name", JVal.str "")]) shelf admin rfl rfl).2.2.1 rfl).2.1,
    ((C5_optional_present_empty Version.v7 memoryDb
      (bodyRequest admin "0" [("name", JVal.str "")]) shelf admin rfl rfl).2.2.1 rfl).2.2.2⟩

/-! ## The numeric rule -/

/-- C6, as the spec words it, fails in both directions.  The string "1e5"
can be interpreted as a number (it reads as 100000), yet the numeric rule
rejects it in the create set and in the update set.  The array of "5" and
"6" cannot be interpreted as a number, yet the rule accepts it.  A price
absent from the body does not fail in the create set when the query string
carries one. -/
theorem C6_numeric_counterexample :
    (interpretableAsNumber (JVal.str "1e5") = true ∧
      ∀ ver,
        validate ver createRules (bodyRequest member "" [("name", JVal.str "Widget"),
            ("description", JVal.str "A widget"), ("price", JVal.str "1e5")]) =
          [{ param := "price", msg := "Price is required and must be a number",
             value := some (JVal.str "1e5"), location := Location.body }] ∧
        validate ver updateRules (bodyRequest admin "0" [("price", JVal.str "1e5")]) =
          [{ param := "price", msg := "Price must be a number",
             value := some (JVal.str "1e5"), location := Location.body }]) ∧
    (interpretableAsNumber (JVal.arr (JList.ofList [JVal.str "5", JVal.str "6"])) = false ∧
      ∀ ver,
        validate ver createRules (bodyRequest member "" [("name", JVal.str "Widget"),
            ("description", JVal.str "A widget"),
            ("price", JVal.arr (JList.ofList [JVal.str "5", JVal.str "6"]))]) = []) ∧
    (fieldOf [("name", JVal.str "Widget"), ("description", JVal.str "A widget")] "price" =
        none ∧
      ∀ ver,
        hasEntry (validate ver createRules
          { identity := some member, id := "",
            body := [("name", JVal.str "Widget"), ("description", JVal.str "A widget")],
            cookies := [], headers := [], query := [("price", JVal.str "5")] })
          "price" = false) := by
  refine ⟨⟨by decide, ?_⟩, ⟨by decide, ?_⟩, by decide, ?_⟩
  · intro ver
    cases ver <;> decide
  · intro ver
    cases ver <;> decide
  · intro ver
    cases ver <;> decide

/-- C6, amended: for a price that occurs in no location other than the body
and is not an array there, the numeric rule passes exactly when the string
form of the price is an optionally signed decimal numeral (a sign `+` or `-`
at most, digits with an optional point among them, ending in a digit),
negative prices included: "9.99", 5 and -3 pass.  A price absent from every
location of the request fails in the create set and is not a failure in the
update set. -/
theorem C6_numeric_rule (ver : Version) (req : Request) :
    (req.plain "price" = true →
      (hasEntry (validate ver createRules req) "price" = false ↔
        DecimalValue (fieldOf req.body "price")) ∧
      (hasEntry (validate ver updateRules req) "price" = false ↔
        fieldOf req.body "price" = none ∨ DecimalValue (fieldOf req.body "price"))) ∧
    (req.absent "price" = true →
      hasEntry (validate ver createRules req) "price" = true ∧
      hasEntry (validate ver updateRules req) "price" = false) ∧
    (hasEntry (validate ver createRules (bodyRequest member ""
        [("price", JVal.str "9.99")])) "price" = false ∧
      hasEntry (validate ver createRules (bodyRequest member ""
        [("price", JVal.num "5")])) "price" = false ∧
      hasEntry (validate ver createRules (bodyRequest member ""
        [("price", JVal.num "-3")])) "price" = false) := by
  refine ⟨?_, ?_, ?_⟩
  · intro hp
    have harr : isArray (fieldOf req.body "price") = false := by
      simp only [Request.plain, Bool.and_eq_true, Bool.not_eq_true'] at hp
      exact hp.2
    have hkey := isNumeric_toStr_iff _ harr
    constructor
    · rw [hasEntry_create_price, createPrice_run ver req hp, ← hkey]
      cases isNumeric (toStr (fieldOf req.body "price")) <;> simp [entryIf]
    · rw [hasEntry_update_price, updatePrice_run ver req hp, ← hkey]
      rcases h : fieldOf req.body "price" with _ | v
      · simp [entryIf]
      · cases isNumeric (toStr (some v)) <;> simp [entryIf]
  · intro h
    obtain ⟨hp, hv⟩ := plain_of_absent req "price" h
    rw [hasEntry_create_price, hasEntry_update_price, createPrice_run ver req hp,
      updatePrice_run ver req hp, hv]
    exact ⟨rfl, rfl⟩
  · cases ver <;> decide

/-! ## Listing -/

/-- The filter of the list handler selects the visible products. -/
theorem matchesFilter_visible (p : Product) :
    matchesFilter [("isVisible", JVal.bool true)] p = p.visible := by
  simp [matchesFilter, Product.visible]

/-- GET on the reference store lists the visible products and leaves the
store as it was. -/
theorem get_memory (req : Request) (store : Store) (u : Identity)
    (hid : req.identity = some u) :
    (serve (getRoute memoryDb) req store).response =
      some { status := 200, body := ResBody.products (store.docs.filter Product.visible) } ∧
    (serve (getRoute memoryDb) req store).ctx.store = store := by
  obtain ⟨h1, _, h3⟩ := get_authenticated memoryDb req store u hid
  refine ⟨?_, ?_⟩
  · rw [h1]
    have hf : List.filter (matchesFilter [("isVisible", JVal.bool true)]) store.docs =
        List.filter Product.visible store.docs := by
      congr 1
      funext p
      exact matchesFilter_visible p
    simp [memoryDb, hf]
  · rw [h3]
    simp [memoryDb]

/-- C7: for every state of the product store, the response of GET / is
exactly the stored products whose isVisible is true, in store order, with no
other filtering, and every product in it has isVisible = true; the store is
left as it was. -/
theorem C7_list_visible_only (req : Request) (store : Store) (u : Identity)
    (hid : req.identity = some u) :
    (serve (getRoute memoryDb) req store).response =
      some { status := 200, body := ResBody.products (store.docs.filter Product.visible) } ∧
    (∀ p ∈ store.docs.filter Product.visible,
      fieldOf p.fields "isVisible" = some (JVal.bool true)) ∧
    (∀ p ∈ store.docs, fieldOf p.fields "isVisible" = some (JVal.bool true) →
      p ∈ store.docs.filter Product.visible) ∧
    (serve (getRoute memoryDb) req store).ctx.store = store := by
  obtain ⟨h1, h2⟩ := get_memory req store u hid
  refine ⟨h1, ?_, ?_, h2⟩
  · intro p hp
    have := (List.mem_filter.1 hp).2
    simpa [Product.visible] using this
  · intro p hp hv
    exact List.mem_filter.2 ⟨hp, by simp [Product.visible, hv]⟩

/-- C7 at a store with a visible and a hidden product: only the visible one
is listed. -/
theorem C7_list_visible_only_witness :
    (bodyRequest member "" []).identity = some member ∧
    (serve (getRoute memoryDb) (bodyRequest member "" [])
        { docs := [{ id := "0", fields := [("name", JVal.str "Widget"),
                      ("isVisible", JVal.bool true)] },
                   { id := "1", fields := [("name", JVal.str "Gadget"),
                      ("isVisible", JVal.bool false)] }],
          nextId := 2 }).response =
      some (Response.mk 200 (ResBody.products
        [{ id := "0", fields := [("name", JVal.str "Widget"),
            ("isVisible", JVal.bool true)] }])) :=
  ⟨rfl,
    (C7_list_visible_only (bodyRequest member "" [])
      { docs := [{ id := "0", fields := [("name", JVal.str "Widget"),
                    ("isVisible", JVal.bool true)] },
                 { id := "1", fields := [("name", JVal.str "Gadget"),
                    ("isVisible", JVal.bool false)] }],
        nextId := 2 } member rfl).1⟩

/-! ## Gates and persistence -/

/-- When the gates of a route pass, its handler makes its one persistence
call, and answers 500 "Server error" if that call throws. -/
theorem serve_gates_pass {σ : Type} (ver : Version) (r : Route) (db : Persistence σ) (req : Request) (store : σ)
    (h : gatesPass ver r req = true) :
    dbCalls (serve (r.stages ver db) req store).ctx.trace = [persistenceCall r req] ∧
    (∀ e, thrownBy db (persistenceCall r req) store = some e →
      (serve (r.stages ver db) req store).response =
        some { status := 500, body := ResBody.text "Server error" }) := by
  unfold gatesPass at h
  rcases hid : req.identity with _ | u
  · rw [hid] at h
    exact absurd h (by simp)
  · rw [hid] at h
    cases r with
    | post =>
      have hv : validate ver createRules req = [] := by simpa using h
      obtain ⟨h1, h2, _⟩ := post_valid ver db req store u hid hv
      refine ⟨by simp only [Route.stages]; rw [h2]; rfl, ?_⟩
      intro e he
      simp only [Route.stages]
      rw [h1]
      simp only [thrownBy, persistenceCall] at he
      split at he
      · rename_i hres
        rw [hres]
      · exact absurd he (by simp)
    | get =>
      obtain ⟨h1, h2, _⟩ := get_authenticated db req store u hid
      refine ⟨by simp only [Route.stages]; rw [h2]; rfl, ?_⟩
      intro e he
      simp only [Route.stages]
      rw [h1]
      simp only [thrownBy, persistenceCall] at he
      split at he
      · rename_i hres
        rw [hres]
      · exact absurd he (by simp)
    | put =>
      have hadmin : u.isAdmin = true := by
        simp only [Bool.and_eq_true] at h
        exact h.1
      have hv : validate ver updateRules req = [] := by
        simp only [Bool.and_eq_true] at h
        simpa using h.2
      obtain ⟨h1, h2, _⟩ := put_valid ver db req store u hid hadmin hv
      refine ⟨by simp only [Route.stages]; rw [h2]; rfl, ?_⟩
      intro e he
      simp only [Route.stages]
      rw [h1]
      simp only [thrownBy, persistenceCall] at he
      split at he
      · rename_i hres
        rw [hres]
      · exact absurd he (by simp)
    | delete =>
      have hadmin : u.isAdmin = true := by simpa using h
      obtain ⟨h1, h2, _⟩ := delete_admin db req store u hid hadmin
      refine ⟨by simp only [Route.stages]; rw [h2]; rfl, ?_⟩
      intro e he
      simp only [Route.stages]
      rw [h1]
      simp only [thrownBy, persistenceCall] at he
      split at he
      · rename_i hres
        rw [hres]
      · exact absurd he (by simp)

/-- When a gate of a route halts the request, no persistence call is made
and the store is as before. -/
theorem serve_gates_fail {σ : Type} (ver : Version) (r : Route) (db : Persistence σ) (req : Request) (store : σ)
    (h : gatesPass ver r req = false) :
    dbCalls (serve (r.stages ver db) req store).ctx.trace = [] ∧
    (serve (r.stages ver db) req store).ctx.store = store := by
  rcases hid : req.identity with _ | u
  · obtain ⟨_, h2, h3⟩ := serve_unauthenticated ver r db req store hid
    exact ⟨by rw [h2]; rfl, h3⟩
  · unfold gatesPass at h
    rw [hid] at h
    cases r with
    | post =>
      have hne : validate ver createRules req ≠ [] := by simpa using h
      obtain ⟨_, h2, h3⟩ := post_invalid ver db req store u hid hne
      exact ⟨by simp only [Route.stages]; rw [h2]; rfl, h3⟩
    | get => exact absurd h (by simp)
    | put =>
      rcases hadmin : u.isAdmin with _ | _
      · obtain ⟨_, h2, h3⟩ := put_non_admin ver db req store u hid hadmin
        exact ⟨by simp only [Route.stages]; rw [h2]; rfl, h3⟩
      · have hne : validate ver updateRules req ≠ [] := by simpa [hadmin] using h
        obtain ⟨_, h2, h3⟩ := put_invalid ver db req store u hid hadmin hne
        exact ⟨by simp only [Route.stages]; rw [h2]; rfl, h3⟩
    | delete =>
      have hadmin : u.isAdmin = false := by simpa using h
      obtain ⟨_, h2, h3⟩ := delete_non_admin db req store u hid hadmin
      exact ⟨by simp only [Route.stages]; rw [h2]; rfl, h3⟩

/-- C8: on each of the four handlers, when the persistence call throws, the
response is status 500 with the fixed body "Server error".  Two runs of a
route on the same request against collaborators that throw different errors
send the same response, so nothing of the error reaches the caller, and each
run made its persistence call once only. -/
theorem C8_persistence_failure {σ : Type} (ver : Version) (r : Route) (db₁ db₂ : Persistence σ)
    (req : Request) (store₁ store₂ : σ) (e₁ e₂ : String)
    (hgates : gatesPass ver r req = true)
    (h₁ : thrownBy db₁ (persistenceCall r req) store₁ = some e₁)
    (h₂ : thrownBy db₂ (persistenceCall r req) store₂ = some e₂) :
    (serve (r.stages ver db₁) req store₁).response =
      some { status := 500, body := ResBody.text "Server error" } ∧
    (serve (r.stages ver db₂) req store₂).response = (serve (r.stages ver db₁) req store₁).response ∧
    dbCalls (serve (r.stages ver db₁) req store₁).ctx.trace = [persistenceCall r req] ∧
    dbCalls (serve (r.stages ver db₂) req store₂).ctx.trace = [persistenceCall r req] := by
  obtain ⟨hc1, hr1⟩ := serve_gates_pass ver r db₁ req store₁ hgates
  obtain ⟨hc2, hr2⟩ := serve_gates_pass ver r db₂ req store₂ hgates
  refine ⟨hr1 e₁ h₁, ?_, hc1, hc2⟩
  rw [hr1 e₁ h₁, hr2 e₂ h₂]

/-- C8 at an admin's DELETE against two collaborators that throw different
errors: both runs answer 500 "Server error". -/
theorem C8_persistence_failure_witness :
    gatesPass Version.v7 Route.delete (bodyRequest admin "0" []) = true ∧
    thrownBy (brokenDb "connection lost") (persistenceCall Route.delete
      (bodyRequest admin "0" [])) shelf = some "connection lost" ∧
    thrownBy (brokenDb "Cast to ObjectId failed") (persistenceCall Route.delete
      (bodyRequest admin "0" [])) shelf = some "Cast to ObjectId failed" ∧
    (serve (Route.delete.stages Version.v7 (brokenDb "connection lost"))
        (bodyRequest admin "0" []) shelf).response =
      some { status := 500, body := ResBody.text "Server error" } ∧
    (serve (Route.delete.stages Version.v7 (brokenDb "Cast to ObjectId failed"))
        (bodyRequest admin "0" []) shelf).response =
      (serve (Route.delete.stages Version.v7 (brokenDb "connection lost"))
        (bodyRequest admin "0" []) shelf).response :=
  ⟨rfl, rfl, rfl,
    (C8_persistence_failure Version.v7 Route.delete (brokenDb "connection lost")
      (brokenDb "Cast to ObjectId failed") (bodyRequest admin "0" []) shelf shelf
      "connection lost" "Cast to ObjectId failed" rfl rfl rfl).1,
    (C8_persistence_failure Version.v7 Route.delete (brokenDb "connection lost")
      (brokenDb "Cast to ObjectId failed") (bodyRequest admin "0" []) shelf shelf
      "connection lost" "Cast to ObjectId failed" rfl rfl rfl).2.1⟩

/-- C9: on every route the authentication gate is the first stage; a
persistence call occurs only if every gate of the route has passed, and then
exactly once; a request the authentication gate halts is answered 401 with
no other stage run and no persistence call; a POST or PUT whose validation
result is not empty is answered 400 with the full list and no persistence
call. -/
theorem C9_gates_before_persistence {σ : Type} (ver : Version) (r : Route) (db : Persistence σ)
    (req : Request) (store : σ) :
    (r.stages ver db).head? = some authMiddleware ∧
    (dbCalls (serve (r.stages ver db) req store).ctx.trace).length ≤ 1 ∧
    (dbCalls (serve (r.stages ver db) req store).ctx.trace ≠ [] → gatesPass ver r req = true) ∧
    (gatesPass ver r req = true →
      dbCalls (serve (r.stages ver db) req store).ctx.trace = [persistenceCall r req]) ∧
    (req.identity = none →
      (serve (r.stages ver db) req store).response =
        some { status := 401, body := ResBody.unspecified } ∧
      (serve (r.stages ver db) req store).ctx.trace = [Event.auth] ∧
      dbCalls (serve (r.stages ver db) req store).ctx.trace = [] ∧
      (serve (r.stages ver db) req store).ctx.store = store) ∧
    (∀ u, req.identity = some u → validate ver createRules req ≠ [] →
      (serve (postRoute ver db) req store).response =
        some { status := 400, body := ResBody.errors (validate ver createRules req) } ∧
      dbCalls (serve (postRoute ver db) req store).ctx.trace = []) ∧
    (∀ u, req.identity = some u → u.isAdmin = true → validate ver updateRules req ≠ [] →
      (serve (putRoute ver db) req store).response =
        some { status := 400, body := ResBody.errors (validate ver updateRules req) } ∧
      dbCalls (serve (putRoute ver db) req store).ctx.trace = []) := by
  refine ⟨?_, ?_, ?_, ?_, ?_, ?_, ?_⟩
  · cases r <;> rfl
  · rcases hg : gatesPass ver r req with _ | _
    · rw [(serve_gates_fail ver r db req store hg).1]
      simp
    · rw [(serve_gates_pass ver r db req store hg).1]
      simp
  · intro hne
    rcases hg : gatesPass ver r req with _ | _
    · exact absurd (serve_gates_fail ver r db req store hg).1 hne
    · rfl
  · intro hg
    exact (serve_gates_pass ver r db req store hg).1
  · intro hid
    obtain ⟨h1, h2, h3⟩ := serve_unauthenticated ver r db req store hid
    exact ⟨h1, h2, by rw [h2]; rfl, h3⟩
  · intro u hid hne
    obtain ⟨h1, h2, _⟩ := post_invalid ver db req store u hid hne
    exact ⟨h1, by rw [h2]; rfl⟩
  · intro u hid hadmin hne
    obtain ⟨h1, h2, _⟩ := put_invalid ver db req store u hid hadmin hne
    exact ⟨h1, by rw [h2]; rfl⟩

/-! ## What the handlers hand to persistence -/

/-- Reading a field is not affected by another field put in front. -/
theorem fieldOf_cons_ne (key k : String) (value : JVal) (body : Body) (h : key ≠ k) :
    fieldOf ((key, value) :: body) k = fieldOf body k := by
  have hk : (k == key) = false := by
    rw [beq_eq_false_iff_ne]
    exact fun h' => h h'.symm
  simp [fieldOf, List.lookup, hk]

/-- After an overwrite, a field of the update has the value given by the
update. -/
theorem fieldOf_overwrite (fields update : Body) (k : String) (v : JVal)
    (h : fieldOf update k = some v) : fieldOf (overwrite fields update) k = some v := by
  unfold fieldOf at h
  unfold overwrite fieldOf
  rw [List.lookup_append, h]
  rfl

/-- A chain reads nothing of a body field other than its own. -/
theorem run_cons_ne (ver : Version) (ch : Chain) (req : Request) (key : String) (value : JVal)
    (h : key ≠ ch.field) :
    ch.run ver { req with body := (key, value) :: req.body } = ch.run ver req := by
  have hsel : selectFields { req with body := (key, value) :: req.body } ch.field =
      selectFields req ch.field := by
    rw [selectFields_eq, selectFields_eq]
    simp [Request.lookup, Request.part, fieldOf_cons_ne key ch.field value req.body h]
  unfold Chain.run
  rw [hsel]

/-- After an update whose body sets `isVisible` to false, no product of the
reference store with the updated id is visible. -/
theorem memory_update_hides (id : String) (update : Body) (st : Store)
    (h : fieldOf update "isVisible" = some (JVal.bool false)) :
    ∀ p ∈ (memoryDb.findByIdAndUpdate id update true st).2.docs,
      p.id = id → p.visible = false := by
  intro p hp hpid
  simp only [memoryDb] at hp
  split at hp
  · rename_i hnone
    rw [List.find?_eq_none] at hnone
    have := hnone p hp
    simp [hpid] at this
  · simp only [List.mem_map] at hp
    obtain ⟨q, _, hq⟩ := hp
    by_cases hqid : q.id = id
    · simp only [hqid, beq_self_eq_true, if_true] at hq
      rw [← hq]
      simp [Product.visible, fieldOf_overwrite q.fields update "isVisible" _ h]
    · have hne : (q.id == id) = false := by
        rw [beq_eq_false_iff_ne]
        exact hqid
      simp only [hne] at hq
      rw [← hq] at hpid
      exact absurd hpid hqid

/-- C10: an admin's PUT whose request passes validation hands the entire
request body, unchanged, to `findByIdAndUpdate`; a field other than name,
description and price is covered by no rule, so adding one changes neither
the validation result nor what is handed over.  A body carrying
`isVisible: false` is applied as it is: on the reference store the updated
product is no longer listed by GET.  The create handler hands `save` a
product built from name, description and price only; any other body field
is dropped. -/
theorem C10_update_whole_body {σ : Type} (ver : Version) (db : Persistence σ) (req : Request)
    (store : σ) (u : Identity) (hid : req.identity = some u) :
    (u.isAdmin = true → validate ver updateRules req = [] →
      dbCalls (serve (putRoute ver db) req store).ctx.trace =
        [DbCall.findByIdAndUpdate req.id req.body true]) ∧
    (∀ key value, key ≠ "name" → key ≠ "description" → key ≠ "price" →
      validate ver updateRules { req with body := (key, value) :: req.body } =
        validate ver updateRules req) ∧
    (∀ st : Store, u.isAdmin = true → validate ver updateRules req = [] →
      fieldOf req.body "isVisible" = some (JVal.bool false) →
      ∃ listed, (serve (getRoute memoryDb) req
          (serve (putRoute ver memoryDb) req st).ctx.store).response =
            some { status := 200, body := ResBody.products listed } ∧
        ∀ p ∈ listed, p.id ≠ req.id) ∧
    (validate ver createRules req = [] →
      dbCalls (serve (postRoute ver db) req store).ctx.trace =
        [DbCall.save { name := fieldOf req.body "name",
                       description := fieldOf req.body "description",
                       price := fieldOf req.body "price" }]) ∧
    (∀ key value, key ≠ "name" → key ≠ "description" → key ≠ "price" →
      newProductOf ((key, value) :: req.body) = newProductOf req.body) := by
  refine ⟨?_, ?_, ?_, ?_, ?_⟩
  · intro hadmin hv
    rw [(put_valid ver db req store u hid hadmin hv).2.1]
    rfl
  · intro key value h1 h2 h3
    rw [validate_updateRules, validate_updateRules,
      run_cons_ne ver updateName req key value h1,
      run_cons_ne ver updateDescription req key value h2,
      run_cons_ne ver updatePrice req key value h3]
  · intro st hadmin hv hvis
    refine ⟨_, (get_memory req _ u hid).1, ?_⟩
    intro p hp hpid
    rw [(put_valid ver memoryDb req st u hid hadmin hv).2.2] at hp
    have hmem := (List.mem_filter.1 hp).1
    have hvisible := (List.mem_filter.1 hp).2
    rw [memory_update_hides req.id req.body st hvis p hmem hpid] at hvisible
    exact absurd hvisible (by simp)
  · intro hv
    rw [(post_valid ver db req store u hid hv).2.1]
    rfl
  · intro key value h1 h2 h3
    simp [newProductOf, fieldOf_cons_ne key "name" value _ h1,
      fieldOf_cons_ne key "description" value _ h2, fieldOf_cons_ne key "price" value _ h3]

/-- C10 at the admin's PUT of `isVisible: false` on the stored product: the
body passes validation, is handed over whole, and the product is no longer
listed. -/
theorem C10_update_whole_body_witness :
    (bodyRequest admin "0" [("isVisible", JVal.bool false)]).identity = some admin ∧
    admin.isAdmin = true ∧
    validate Version.v7 updateRules (bodyRequest admin "0" [("isVisible", JVal.bool false)]) =
      [] ∧
    dbCalls (serve (putRoute Version.v7 memoryDb)
        (bodyRequest admin "0" [("isVisible", JVal.bool false)]) shelf).ctx.trace =
      [DbCall.findByIdAndUpdate "0" [("isVisible", JVal.bool false)] true] ∧
    (serve (getRoute memoryDb) (bodyRequest admin "0" [("isVisible", JVal.bool false)])
        (serve (putRoute Version.v7 memoryDb)
          (bodyRequest admin "0" [("isVisible", JVal.bool false)])
          shelf).ctx.store).response =
      some { status := 200, body := ResBody.products [] } :=
  ⟨rfl, rfl, by decide,
    (C10_update_whole_body Version.v7 memoryDb
      (bodyRequest admin "0" [("isVisible", JVal.bool false)]) shelf admin rfl).1 rfl
      (by decide),
    by decide⟩

end NodeAssessment
